import Mathlib

/-!
Verification development for the NovelIngestion repository.

This file shallowly embeds the parts of the source that the checked
properties are about:

* `src/normalizer.py` — `ContentCleaner`, `SlugGenerator`, `GenreNormalizer`;
* `src/crawler/pipelines.py` — `ValidationPipeline`, `NormalizationPipeline`,
  `DatabasePipeline` (series and one-shot persistence paths, job status
  updates, commit/rollback discipline);
* `src/models.py` — the row shapes of `Novel`, `Chapter`, `Genre`,
  `IngestionJob` (the fields the pipelines read and write).

The relational store is modelled as explicit state: a `DB` record of row
lists, and a `Session` holding the committed snapshot, the pending
(uncommitted) state, and the list of committed snapshots (one per
`commit()` call), which makes transaction-boundary properties statable.
Exceptions raised inside the persistence transaction are modelled by an
injected failure parameter: the partially mutated pending state at the
moment the exception is raised, plus the exception message.

String primitives (`lower`, `strip`, `split`, substring search, string
comparison) are implemented over `List Char` so that every definition
reduces inside the kernel; each mirrors the Python primitive it stands for.
-/

/-! ## String helpers shared by the normalizer embedding -/

/-- Python `str.lower()` (character-wise ASCII lowering). -/
def lowerStr (s : String) : String :=
  String.mk (s.data.map Char.toLower)

/-- Python `str.strip()`: drop leading and trailing whitespace. -/
def trimStr (s : String) : String :=
  String.mk (((s.data.dropWhile Char.isWhitespace).reverse.dropWhile
    Char.isWhitespace).reverse)

/-- Accumulator pass for `strWords`: split on whitespace, dropping empty
tokens; `cur` holds the current word reversed. -/
def wordsAux : List Char → List Char → List String
  | [], cur => if cur.isEmpty then [] else [String.mk cur.reverse]
  | c :: cs, cur =>
    if c.isWhitespace then
      if cur.isEmpty then wordsAux cs []
      else String.mk cur.reverse :: wordsAux cs []
    else wordsAux cs (c :: cur)

/-- Python `str.split()` with no argument: whitespace-separated tokens,
empties dropped. -/
def strWords (s : String) : List String :=
  wordsAux s.data []

/-- Does the pattern sit at the head of the list? -/
def isLeadOf : List Char → List Char → Bool
  | [], _ => true
  | _ :: _, [] => false
  | p :: ps, c :: cs => p = c && isLeadOf ps cs

/-- Substring occurrence test on character lists. -/
def containsSubAux (p : List Char) : List Char → Bool
  | [] => isLeadOf p []
  | c :: cs => isLeadOf p (c :: cs) || containsSubAux p cs

/-- Substring test: `containsSub t p` is true when `p` occurs inside `t`
(embeds Python `re.search` for the plain-text junk patterns). -/
def containsSub (t p : String) : Bool :=
  containsSubAux p.data t.data

/-- Join a list of strings with a separator (Python `sep.join(ws)`). -/
def joinWith (sep : String) : List String → String
  | [] => ""
  | [w] => w
  | w :: ws => w ++ sep ++ joinWith sep ws

/-- Python string comparison on character lists: lexicographic by code
point. -/
def charListLe : List Char → List Char → Bool
  | [], _ => true
  | _ :: _, [] => false
  | a :: as, b :: bs => if a = b then charListLe as bs else decide (a < b)

/-- Python `<=` on strings: lexicographic by code point. -/
def strLe (a b : String) : Bool :=
  charListLe a.data b.data

/-- Insert into a sorted list, stably (helper for `sortStrings`). -/
def insertSorted (x : String) : List String → List String
  | [] => [x]
  | y :: ys => if strLe x y then x :: y :: ys else y :: insertSorted x ys

/-- Python `sorted` on a list of strings (insertion sort; `sorted` is
stable, and on duplicate-free input any comparison sort agrees). -/
def sortStrings : List String → List String
  | [] => []
  | x :: xs => insertSorted x (sortStrings xs)

/-- Modelled from the spec: the external `python-slugify` library called by
`SlugGenerator.generate_slug` (`src/normalizer.py` line 158); the library is
not part of this repository.  Per the spec (§4.2): lowercase, map runs of
non-alphanumeric characters to single hyphen separators, trim, cap the
length on a word boundary.  For ASCII inputs that do not reach the length
cap (all inputs appearing in the claims) this is exact. -/
def slugify (maxLen : Nat) (s : String) : String :=
  let mapped := String.mk ((lowerStr s).data.map
    (fun c => if c.isAlphanum then c else ' '))
  let ws := strWords mapped
  let full := joinWith "-" ws
  if full.length ≤ maxLen then full
  else ws.foldl (fun acc w =>
    if acc = "" then (if w.length ≤ maxLen then w else "")
    else if acc.length + 1 + w.length ≤ maxLen then acc ++ "-" ++ w
    else acc) ""

/-- `SlugGenerator.generate_slug` (`src/normalizer.py` lines 146-158):
`slugify(text, max_length=500)`. -/
def generate_slug (text : String) : String :=
  slugify 500 text

/-- Python `str.title()` applied to a lowercase space-separated string:
capitalize each word (`src/crawler/pipelines.py` line 311). -/
def titleCase (s : String) : String :=
  joinWith " " ((strWords s).map (fun w =>
    match w.data with
    | [] => ""
    | c :: cs => String.mk (c.toUpper :: cs)))

/-- Display name derived from a genre slug:
`slug.replace('-', ' ').title()` (`src/crawler/pipelines.py` line 311). -/
def genreDisplayName (slug : String) : String :=
  titleCase (String.mk (slug.data.map (fun c => if c = '-' then ' ' else c)))

/-! ## GenreNormalizer (`src/normalizer.py` lines 161-259) -/

/-- `GenreNormalizer.GENRE_MAPPINGS` (`src/normalizer.py` lines 169-206),
as an association list in source order. -/
def GENRE_MAPPINGS : List (String × String) :=
  [("fantasy", "fantasy"),
   ("high fantasy", "high-fantasy"),
   ("urban fantasy", "urban-fantasy"),
   ("dark fantasy", "dark-fantasy"),
   ("xianxia", "xianxia"),
   ("xuanhuan", "xuanhuan"),
   ("wuxia", "wuxia"),
   ("cultivation", "cultivation"),
   ("action", "action"),
   ("adventure", "adventure"),
   ("romance", "romance"),
   ("mystery", "mystery"),
   ("horror", "horror"),
   ("thriller", "thriller"),
   ("sci-fi", "science-fiction"),
   ("science fiction", "science-fiction"),
   ("scifi", "science-fiction"),
   ("drama", "drama"),
   ("comedy", "comedy"),
   ("slice of life", "slice-of-life"),
   ("psychological", "psychological"),
   ("supernatural", "supernatural"),
   ("martial arts", "martial-arts"),
   ("historical", "historical"),
   ("tragedy", "tragedy"),
   ("seinen", "seinen"),
   ("shounen", "shounen"),
   ("isekai", "isekai"),
   ("litrpg", "litrpg"),
   ("progression", "progression"),
   ("system", "system")]

/-- `GenreNormalizer.normalize_genre` (`src/normalizer.py` lines 208-236):
empty input is rejected; the trimmed, lowercased tag is looked up in the
mapping table; otherwise a slug is generated and accepted only when its
length is between 2 and 50. -/
def normalize_genre (raw_genre : String) : Option String :=
  if raw_genre = "" then none
  else
    let clean := lowerStr (trimStr raw_genre)
    match GENRE_MAPPINGS.find? (fun p => p.1 = clean) with
    | some p => some p.2
    | none =>
      let slug := generate_slug clean
      if slug ≠ "" ∧ 2 ≤ slug.length ∧ slug.length ≤ 50 then some slug
      else none

/-- The deduplicating accumulation of `normalize_genres`: Python builds a
`set` of the successful normalizations; modelled as first-occurrence
insertion (set membership is what the later `sorted` consumes). -/
def normalizeGenresAcc (raw_genres : List String) : List String :=
  raw_genres.foldl (fun acc g =>
    match normalize_genre g with
    | some slug => if slug ∈ acc then acc else acc ++ [slug]
    | none => acc) []

/-- `GenreNormalizer.normalize_genres` (`src/normalizer.py` lines 238-259):
normalize each tag, discard failures, deduplicate via a set, and return
`sorted(list(normalized))`. -/
def normalize_genres (raw_genres : List String) : List String :=
  if raw_genres.isEmpty then []
  else sortStrings (normalizeGenresAcc raw_genres)

/-! ## ContentCleaner (`src/normalizer.py` lines 11-140)

Raw HTML is modelled post-parse, as the node tree BeautifulSoup produces:
text nodes and element nodes carrying the joined `class` attribute and the
`id` attribute (the only attributes the cleaner consults; every other
attribute is dropped by the bleach step anyway). -/

mutual

/-- A parsed HTML node: a text node, or an element with tag name, optional
joined `class` string, optional `id`, and children.  The child list is its
own inductive (`HtmlList`) so that every traversal below is structural
mutual recursion. -/
inductive Html where
  | text (s : String)
  | elem (tag : String) (cls : Option String) (idAttr : Option String)
      (children : HtmlList)

/-- Children of an `Html` element. -/
inductive HtmlList where
  | nil
  | cons (h : Html) (t : HtmlList)
end

/-- Append for `HtmlList`. -/
def HtmlList.append : HtmlList → HtmlList → HtmlList
  | .nil, l => l
  | .cons h t, l => .cons h (t.append l)

/-- Build an `HtmlList` from a `List Html` (notation convenience). -/
def HtmlList.ofList : List Html → HtmlList
  | [] => .nil
  | h :: t => .cons h (HtmlList.ofList t)

/-- `ContentCleaner.ALLOWED_TAGS` (`src/normalizer.py` lines 20-25). -/
def ALLOWED_TAGS : List String :=
  ["p", "br", "em", "strong", "b", "i", "u",
   "h1", "h2", "h3", "h4", "h5", "h6",
   "blockquote", "ol", "ul", "li",
   "hr", "span", "div"]

/-- `ContentCleaner.JUNK_PATTERNS` compiled as one case-insensitive
alternation (`src/normalizer.py` lines 33-52).  The regex alternation is
expanded: `ad[s]?[-_]` becomes the four literal substrings `ad-`, `ad_`,
`ads-`, `ads_`, and `nav[-_]` becomes `nav-`, `nav_`; the remaining
patterns are plain substrings.  `re.IGNORECASE` is modelled by lowering
the candidate string first. -/
def junkMatch (s : String) : Bool :=
  let t := lowerStr s
  containsSub t "ad-" || containsSub t "ad_" ||
  containsSub t "ads-" || containsSub t "ads_" ||
  containsSub t "advertisement" || containsSub t "banner" ||
  containsSub t "sidebar" || containsSub t "navigation" ||
  containsSub t "nav-" || containsSub t "nav_" ||
  containsSub t "menu" || containsSub t "footer" ||
  containsSub t "header" || containsSub t "social" ||
  containsSub t "share" || containsSub t "comment" ||
  containsSub t "popup" || containsSub t "modal" ||
  containsSub t "related"

mutual
/-- Step 1 of `clean_html` (`src/normalizer.py` lines 70-72) together with
steps 2-3: the generic "decompose every node failing a keep-predicate"
traversal.  `keep` decides from (tag, class, id) whether the node survives;
a removed node disappears with its whole subtree and text. -/
def decomposeWhere (keep : String → Option String → Option String → Bool) :
    Html → Option Html
  | .text s => some (.text s)
  | .elem tag cls idA children =>
    if keep tag cls idA then
      some (.elem tag cls idA (decomposeWhereList keep children))
    else none

/-- `decomposeWhere` mapped over a child list, dropping removed nodes. -/
def decomposeWhereList
    (keep : String → Option String → Option String → Bool) :
    HtmlList → HtmlList
  | .nil => .nil
  | .cons h t =>
    match decomposeWhere keep h with
    | some h' => .cons h' (decomposeWhereList keep t)
    | none => decomposeWhereList keep t
end

/-- Step 1 of `clean_html` (`src/normalizer.py` lines 70-72): decompose
`script`, `style`, `iframe`, `noscript` nodes, subtree and text included. -/
def stripBadTags (h : Html) : Option Html :=
  decomposeWhere (fun tag _ _ =>
    !(tag = "script" || tag = "style" || tag = "iframe" || tag = "noscript")) h

/-- Step 2 of `clean_html` (`src/normalizer.py` lines 74-78): decompose any
element whose joined class string matches the junk pattern. -/
def stripJunkClass (h : Html) : Option Html :=
  decomposeWhere (fun _ cls _ =>
    match cls with
    | some c => !junkMatch c
    | none => true) h

/-- Step 3 of `clean_html` (`src/normalizer.py` lines 80-83): decompose any
element whose `id` matches the junk pattern. -/
def stripJunkId (h : Html) : Option Html :=
  decomposeWhere (fun _ _ idA =>
    match idA with
    | some i => !junkMatch i
    | none => true) h

mutual
/-- Step 4 of `clean_html` (`src/normalizer.py` lines 88-94):
`bleach.clean(..., tags=ALLOWED_TAGS, attributes={'*': ['class']},
strip=True)` — disallowed tags are stripped but their contents kept
(unwrapped, so one node can become several), and of the attributes only
`class` survives. -/
def bleachStrip : Html → HtmlList
  | .text s => .cons (.text s) .nil
  | .elem tag cls _ children =>
    let kids := bleachStripList children
    if tag ∈ ALLOWED_TAGS then .cons (.elem tag cls none kids) .nil else kids

/-- `bleachStrip` over a child list, splicing unwrapped children. -/
def bleachStripList : HtmlList → HtmlList
  | .nil => .nil
  | .cons h t => (bleachStrip h).append (bleachStripList t)
end

mutual
/-- Serialization of a cleaned node back to HTML text (the `str(soup)` /
bleach output; `class` is the only attribute that can still be present). -/
def serializeHtml : Html → String
  | .text s => s
  | .elem tag cls _ children =>
    "<" ++ tag ++
      (match cls with
       | some c => " class=\x22" ++ c ++ "\x22"
       | none => "") ++ ">" ++
    serializeHtmlList children ++
    "</" ++ tag ++ ">"

/-- Concatenated serialization of a child list. -/
def serializeHtmlList : HtmlList → String
  | .nil => ""
  | .cons h t => serializeHtml h ++ serializeHtmlList t
end

/-- Run of `\n{3,}` collapsed to exactly two newlines
(`src/normalizer.py` line 104); `run` counts pending newlines. -/
def collapseNLAux : List Char → Nat → List Char
  | [], run => if run ≥ 3 then ['\n', '\n'] else List.replicate run '\n'
  | c :: cs, run =>
    if c = '\n' then collapseNLAux cs (run + 1)
    else (if run ≥ 3 then ['\n', '\n'] else List.replicate run '\n') ++
      c :: collapseNLAux cs 0

/-- Run of two or more spaces collapsed to one
(`src/normalizer.py` line 107). -/
def collapseSpAux : List Char → Nat → List Char
  | [], run => if run ≥ 2 then [' '] else List.replicate run ' '
  | c :: cs, run =>
    if c = ' ' then collapseSpAux cs (run + 1)
    else (if run ≥ 2 then [' '] else List.replicate run ' ') ++
      c :: collapseSpAux cs 0

/-- Drop the given literal pattern from the head of the list, or fail. -/
def dropLead? : List Char → List Char → Option (List Char)
  | [], l => some l
  | _ :: _, [] => none
  | p :: ps, c :: cs => if c = p then dropLead? ps cs else none

/-- Match `openT`, then any whitespace, then `closeT` at the head of the
list, returning the remainder (the shape of the `<p>\s*</p>` and
`<div>\s*</div>` regexes of `src/normalizer.py` lines 110-111). -/
def matchEmptyTag (openT closeT : List Char) (l : List Char) :
    Option (List Char) :=
  (dropLead? openT l).bind (fun r =>
    dropLead? closeT (r.dropWhile Char.isWhitespace))

/-- Left-to-right, non-overlapping removal of empty-tag occurrences, as
`re.sub` performs it.  Fuel is the list length; each step consumes at
least one character, so the fuel never runs out on real input. -/
def removeEmptyTagAux (openT closeT : List Char) :
    Nat → List Char → List Char
  | 0, l => l
  | _ + 1, [] => []
  | fuel + 1, c :: cs =>
    match matchEmptyTag openT closeT (c :: cs) with
    | some rest => removeEmptyTagAux openT closeT fuel rest
    | none => c :: removeEmptyTagAux openT closeT fuel cs

/-- Remove every `openT …whitespace… closeT` occurrence from a string. -/
def removeEmptyTag (openT closeT : String) (s : String) : String :=
  String.mk (removeEmptyTagAux openT.data closeT.data s.data.length s.data)

/-- `ContentCleaner._normalize_whitespace` (`src/normalizer.py` lines
101-113): collapse 3+ newlines to a blank line, collapse 2+ spaces to one,
delete empty `<p>`/`<div>` wrappers, strip. -/
def normalizeWhitespace (s : String) : String :=
  let s1 := String.mk (collapseNLAux s.data 0)
  let s2 := String.mk (collapseSpAux s1.data 0)
  let s3 := removeEmptyTag "<p>" "</p>" s2
  let s4 := removeEmptyTag "<div>" "</div>" s3
  trimStr s4

/-- `ContentCleaner.clean_html` (`src/normalizer.py` lines 54-99) on a
parsed tree: decompose script/style/iframe/noscript, decompose junk
class/id nodes, bleach down to the tag/attribute allow-list, serialize and
normalize whitespace. -/
def clean_html (h : Html) : String :=
  let t1 := stripBadTags h
  let t2 := t1.bind stripJunkClass
  let t3 := t2.bind stripJunkId
  let frags := match t3 with
    | some t => bleachStrip t
    | none => HtmlList.nil
  normalizeWhitespace (serializeHtmlList frags)

/-- Tag-stripping pass of `count_words`: replace every `<…>` region with a
single space, modelling `BeautifulSoup.get_text(separator=' ')` applied to
serialized clean HTML (`ContentCleaner.extract_text`,
`src/normalizer.py` lines 115-126). -/
def stripTagsAux : List Char → Bool → List Char
  | [], _ => []
  | c :: cs, inTag =>
    if inTag then
      if c = '>' then ' ' :: stripTagsAux cs false
      else stripTagsAux cs true
    else
      if c = '<' then stripTagsAux cs true
      else c :: stripTagsAux cs false

/-- `ContentCleaner.count_words` (`src/normalizer.py` lines 128-140):
extract the text and count whitespace-separated tokens. -/
def count_words (html : String) : Nat :=
  (strWords (String.mk (stripTagsAux html.data false))).length

/-! ## Scrapy item shapes and the validation / normalization pipelines
(`src/crawler/pipelines.py` lines 16-125)

A raw item is the dict a spider yields; `content` is `none` when the key is
absent or falsy (Python truthiness of `item.get('content')`). -/

/-- A raw chapter dict inside a scraped item. -/
structure RawChapter where
  chapter_number : Int
  chapter_title : String
  content : Html
  source_url : Option String
  genres : List String

/-- A raw scraped item as consumed by `ValidationPipeline` and
`NormalizationPipeline`. -/
structure RawItem where
  title : String
  source_url : String
  synopsis : String
  status : Option String
  genres : List String
  chapters : List RawChapter
  is_one_shot : Bool
  content : Option Html
  ingestion_job_id : Option Nat

/-- A normalized chapter dict: the raw chapter after
`NormalizationPipeline` has added `clean_content`, `word_count` and
`normalized_genres` (`src/crawler/pipelines.py` lines 86-113). -/
structure NormChapter where
  chapter_number : Int
  chapter_title : String
  clean_content : String
  word_count : Nat
  source_url : Option String
  normalized_genres : List String
deriving DecidableEq

/-- The normalized item handed to `DatabasePipeline`: the raw item plus
`slug`, `normalized_genres`, per-chapter normalization results and the
total `word_count`. -/
structure NormItem where
  title : String
  source_url : String
  synopsis : String
  status : Option String
  slug : String
  normalized_genres : List String
  chapters : List NormChapter
  word_count : Nat
  is_one_shot : Bool
  ingestion_job_id : Option Nat
deriving DecidableEq

/-- `ValidationPipeline.process_item` (`src/crawler/pipelines.py` lines
19-51): require truthy `title` and `source_url`; a one-shot must have
exactly one chapter or direct content; a series must have at least one
chapter. -/
def validation_process (item : RawItem) : Except String RawItem :=
  if item.title = "" then .error "Missing required field: title"
  else if item.source_url = "" then .error "Missing required field: source_url"
  else if item.is_one_shot then
    if item.chapters.length ≠ 1 then
      match item.content with
      | none => .error "One-shot novel must have content or exactly one chapter"
      | some _ => .ok item
    else .ok item
  else
    if item.chapters.isEmpty then
      .error "Novel series must have at least one chapter"
    else .ok item

/-- `NormalizationPipeline.process_item` (`src/crawler/pipelines.py` lines
60-125): compute the slug, normalize the genres, then either synthesize a
single chapter from direct one-shot content (number 1, title = item
title) or clean every listed chapter, and store the summed word count. -/
def normalization_process (item : RawItem) : NormItem :=
  let slug := generate_slug item.title
  let ngenres := normalize_genres item.genres
  match item.is_one_shot, item.chapters, item.content with
  | true, [], some raw =>
    let cc := clean_html raw
    let wc := count_words cc
    { title := item.title
      source_url := item.source_url
      synopsis := item.synopsis
      status := item.status
      slug := slug
      normalized_genres := ngenres
      chapters := [{ chapter_number := 1
                     chapter_title := item.title
                     clean_content := cc
                     word_count := wc
                     source_url := none
                     normalized_genres := [] }]
      word_count := wc
      is_one_shot := item.is_one_shot
      ingestion_job_id := item.ingestion_job_id }
  | _, _, _ =>
    let nchs := item.chapters.map (fun ch =>
      let cc := clean_html ch.content
      { chapter_number := ch.chapter_number
        chapter_title := ch.chapter_title
        clean_content := cc
        word_count := count_words cc
        source_url := ch.source_url
        normalized_genres :=
          if ch.genres.isEmpty then [] else normalize_genres ch.genres
        : NormChapter })
    { title := item.title
      source_url := item.source_url
      synopsis := item.synopsis
      status := item.status
      slug := slug
      normalized_genres := ngenres
      chapters := nchs
      word_count := (nchs.map (fun c => c.word_count)).sum
      is_one_shot := item.is_one_shot
      ingestion_job_id := item.ingestion_job_id }

/-! ## Relational model (`src/models.py`) and the session discipline -/

/-- `IngestionStatus` (`src/models.py` lines 12-19). -/
inductive IngestionStatus where
  | QUEUED | CRAWLING | PARSING | SAVING | DONE | ERROR
deriving DecidableEq

/-- `NovelStatus` (`src/models.py` lines 22-26). -/
inductive NovelStatus where
  | ONGOING | COMPLETED | UNKNOWN
deriving DecidableEq

/-- A `novels` row (`src/models.py` lines 49-68), the fields the pipeline
reads and writes. -/
structure NovelRow where
  id : Nat
  title : String
  slug : String
  synopsis : String
  source_url : String
  status : NovelStatus
  word_count : Nat
deriving DecidableEq

/-- A `chapters` row (`src/models.py` lines 71-101). -/
structure ChapterRow where
  id : Nat
  novel_id : Option Nat
  chapter_number : Int
  title : String
  slug : Option String
  content : String
  source_url : Option String
  word_count : Nat
  is_one_shot : Bool
deriving DecidableEq

/-- A `genres` row (`src/models.py` lines 104-118). -/
structure GenreRow where
  id : Nat
  name : String
  slug : String
deriving DecidableEq

/-- An `ingestion_jobs` row (`src/models.py` lines 121-134). -/
structure JobRow where
  id : Nat
  status : IngestionStatus
  error_message : Option String
deriving DecidableEq

/-- The relational store: one list per table, plus the next fresh primary
key (`flush()` assigns ids from it).  Association rows are
`(novel_id, genre_id)` and `(chapter_id, genre_id)` pairs
(`novel_genres` / `chapter_genres`, `src/models.py` lines 30-46). -/
structure DB where
  novels : List NovelRow
  chapters : List ChapterRow
  genres : List GenreRow
  novel_genres : List (Nat × Nat)
  chapter_genres : List (Nat × Nat)
  jobs : List JobRow
  nextId : Nat
deriving DecidableEq

/-- The content-table part of the store (everything except `jobs`): the
projection under which a status-only commit is invisible. -/
structure DBContent where
  novels : List NovelRow
  chapters : List ChapterRow
  genres : List GenreRow
  novel_genres : List (Nat × Nat)
  chapter_genres : List (Nat × Nat)
  nextId : Nat
deriving DecidableEq

/-- Project a `DB` to its content tables. -/
def DB.contentPart (db : DB) : DBContent :=
  { novels := db.novels
    chapters := db.chapters
    genres := db.genres
    novel_genres := db.novel_genres
    chapter_genres := db.chapter_genres
    nextId := db.nextId }

/-- A SQLAlchemy session: the last committed store, the pending
(uncommitted) store the ORM queries and mutates, and the list of committed
snapshots in commit order (the transaction log the temporal claims are
about). -/
structure Session where
  committed : DB
  pending : DB
  commitLog : List DB
deriving DecidableEq

/-- A freshly opened session over a store. -/
def Session.fresh (db : DB) : Session :=
  { committed := db, pending := db, commitLog := [] }

/-- `session.commit()`: the pending state becomes the committed state and
is appended to the commit log. -/
def Session.commit (s : Session) : Session :=
  { committed := s.pending, pending := s.pending
    commitLog := s.commitLog ++ [s.pending] }

/-- `session.rollback()`: pending changes are discarded. -/
def Session.rollback (s : Session) : Session :=
  { committed := s.committed, pending := s.committed
    commitLog := s.commitLog }

/-! ## DatabasePipeline (`src/crawler/pipelines.py` lines 128-453) -/

/-- The row mutation of `DatabasePipeline._update_job_status`
(`src/crawler/pipelines.py` lines 445-449): set the status, and set the
error message only when one is given and truthy.  Note the error message
is stored as passed — no truncation. -/
def jobsSet (jobs : List JobRow) (job_id : Nat) (status : IngestionStatus)
    (error_message : Option String) : List JobRow :=
  jobs.map (fun j =>
    if j.id = job_id then
      { j with status := status
               error_message :=
                 match error_message with
                 | some m => if m = "" then j.error_message else some m
                 | none => j.error_message }
    else j)

/-- `session.query(IngestionJob).filter_by(id=job_id).first()` followed by
the in-place mutation and commit of `_update_job_status`; nothing happens
when the job row is absent. -/
def update_job_status (s : Session) (job_id : Nat) (status : IngestionStatus)
    (error_message : Option String) : Session :=
  if s.pending.jobs.any (fun j => j.id = job_id) then
    Session.commit { s with pending :=
      { s.pending with jobs := jobsSet s.pending.jobs job_id status error_message } }
  else s

/-- Status-string mapping of `_create_novel` / `_update_novel`
(`src/crawler/pipelines.py` lines 253-260, 284-291):
`{'ongoing': ONGOING, 'completed': COMPLETED}.get(s.lower(), UNKNOWN)`. -/
def mapNovelStatus (s : String) : NovelStatus :=
  if lowerStr s = "ongoing" then .ONGOING
  else if lowerStr s = "completed" then .COMPLETED
  else .UNKNOWN

/-- `DatabasePipeline._create_novel` (`src/crawler/pipelines.py` lines
250-274): insert a novel with the item's fields and flush to obtain its
id. -/
def create_novel (db : DB) (item : NormItem) : DB × Nat :=
  let status := mapNovelStatus (match item.status with
    | some s => s
    | none => "")
  let nid := db.nextId
  let novel : NovelRow :=
    { id := nid
      title := item.title
      slug := item.slug
      synopsis := item.synopsis
      source_url := item.source_url
      status := status
      word_count := item.word_count }
  ({ db with novels := db.novels ++ [novel], nextId := nid + 1 }, nid)

/-- `DatabasePipeline._update_novel` (`src/crawler/pipelines.py` lines
276-294): update title, synopsis and word count in place; update the
status only when the item carries a truthy status string. -/
def update_novel (db : DB) (nid : Nat) (item : NormItem) : DB :=
  { db with novels := db.novels.map (fun n =>
      if n.id = nid then
        { n with title := item.title
                 synopsis := item.synopsis
                 word_count := item.word_count
                 status :=
                   match item.status with
                   | some st => if st = "" then n.status else mapNovelStatus st
                   | none => n.status }
      else n) }

/-- The get-or-create step shared by `_attach_genres` and
`_attach_genres_to_chapter` (`src/crawler/pipelines.py` lines 305-315,
328-337): find the genre row by slug, or insert one whose display name is
derived from the slug and flush for its id. -/
def get_or_create_genre (db : DB) (slug : String) : DB × Nat :=
  match db.genres.find? (fun g => g.slug = slug) with
  | some g => (db, g.id)
  | none =>
    let gid := db.nextId
    let genre : GenreRow :=
      { id := gid, name := genreDisplayName slug, slug := slug }
    ({ db with genres := db.genres ++ [genre], nextId := gid + 1 }, gid)

/-- One iteration of the attach loop of `_attach_genres`
(`src/crawler/pipelines.py` lines 305-317): get-or-create the genre row
and append the `novel_genres` link. -/
def attach_genres_step (nid : Nat) (db : DB) (slug : String) : DB :=
  let r := get_or_create_genre db slug
  { r.1 with novel_genres := r.1.novel_genres ++ [(nid, r.2)] }

/-- One iteration of the attach loop of `_attach_genres_to_chapter`
(`src/crawler/pipelines.py` lines 328-339). -/
def attach_genres_to_chapter_step (cid : Nat) (db : DB) (slug : String) : DB :=
  let r := get_or_create_genre db slug
  { r.1 with chapter_genres := r.1.chapter_genres ++ [(cid, r.2)] }

/-- `DatabasePipeline._attach_genres` (`src/crawler/pipelines.py` lines
296-317): on an empty slug list return immediately (existing links are
left untouched); otherwise clear this novel's genre links and attach one
link per slug, get-or-creating each genre row. -/
def attach_genres (db : DB) (nid : Nat) (genre_slugs : List String) : DB :=
  if genre_slugs.isEmpty then db
  else
    let db := { db with
      novel_genres := db.novel_genres.filter (fun p => p.1 ≠ nid) }
    genre_slugs.foldl (attach_genres_step nid) db

/-- `DatabasePipeline._attach_genres_to_chapter` (`src/crawler/pipelines.py`
lines 319-339): the chapter-side mirror of `attach_genres`. -/
def attach_genres_to_chapter (db : DB) (cid : Nat)
    (genre_slugs : List String) : DB :=
  if genre_slugs.isEmpty then db
  else
    let db := { db with
      chapter_genres := db.chapter_genres.filter (fun p => p.1 ≠ cid) }
    genre_slugs.foldl (attach_genres_to_chapter_step cid) db

/-- One iteration of the chapter-insertion loop of `_save_chapters`
(`src/crawler/pipelines.py` lines 347-365): insert the fresh row, flush
for its id, and attach the chapter's genres when it has any. -/
def save_chapters_step (nid : Nat) (db : DB) (cd : NormChapter) : DB :=
  let cid := db.nextId
  let row : ChapterRow :=
    { id := cid
      novel_id := some nid
      chapter_number := cd.chapter_number
      title := cd.chapter_title
      slug := none
      content := cd.clean_content
      source_url := cd.source_url
      word_count := cd.word_count
      is_one_shot := false }
  let db := { db with chapters := db.chapters ++ [row], nextId := cid + 1 }
  if cd.normalized_genres.isEmpty then db
  else attach_genres_to_chapter db cid cd.normalized_genres

/-- `DatabasePipeline._save_chapters` (`src/crawler/pipelines.py` lines
341-367): delete every chapter row of this novel (the database-level
`ON DELETE CASCADE` of `chapter_genres.chapter_id`, `src/models.py` line
42, removes their genre links with them), then insert one fresh row per
normalized chapter. -/
def save_chapters (db : DB) (nid : Nat) (chapters : List NormChapter) : DB :=
  let db := { db with
    chapters := db.chapters.filter (fun c => c.novel_id ≠ some nid)
    chapter_genres := db.chapter_genres.filter (fun p =>
      ¬ (db.chapters.any (fun c => c.id = p.1 ∧ c.novel_id = some nid))) }
  chapters.foldl (save_chapters_step nid) db

/-- Steps 1-3 of the series path of `DatabasePipeline.process_item`
(`src/crawler/pipelines.py` lines 178-201): find the novel by source URL
and update it, or create it; attach the normalized genres; replace the
chapters.  Runs entirely on the pending state. -/
def series_body (db : DB) (item : NormItem) : DB :=
  let r : DB × Nat :=
    match db.novels.find? (fun n => n.source_url = item.source_url) with
    | some n => (update_novel db n.id item, n.id)
    | none => create_novel db item
  let db := attach_genres r.1 r.2 item.normalized_genres
  save_chapters db r.2 item.chapters

/-- The series path inside the `try` of `process_item`
(`src/crawler/pipelines.py` lines 167-215).  An exception raised during
steps 1-3 is injected as `exc = some (msg, pdb)`: `msg` is `str(e)` and
`pdb` the partially mutated pending state at the moment of the raise (the
body's mutations up to that point).  The returned flag is the exception
propagating out of the `try` body, to be handled by the `except` clause. -/
def series_inner (s : Session) (item : NormItem)
    (exc : Option (String × DB)) : Session × Option String :=
  let s := match item.ingestion_job_id with
    | some j => update_job_status s j .SAVING none
    | none => s
  match exc with
  | none =>
    let s := { s with pending := series_body s.pending item }
    let s := s.commit
    let s := match item.ingestion_job_id with
      | some j => update_job_status s j .DONE none
      | none => s
    (s, none)
  | some e => ({ s with pending := e.2 }, some e.1)

/-- Body of `_save_one_shot_chapter` between its status updates
(`src/crawler/pipelines.py` lines 377-412): find an existing chapter by
`(slug, is_one_shot=True)` and update it in place, or create a fresh
standalone chapter (`novel_id = None`, `chapter_number = 1`); then attach
the item's genres to the chapter. -/
def one_shot_body (db : DB) (item : NormItem) (cd : NormChapter) : DB :=
  let chapter_slug := generate_slug item.title
  match db.chapters.find? (fun c =>
      c.slug = some chapter_slug ∧ c.is_one_shot = true) with
  | some c0 =>
    let db := { db with chapters := db.chapters.map (fun c =>
      if c.id = c0.id then
        { c with title := item.title
                 content := cd.clean_content
                 word_count := cd.word_count
                 source_url := some item.source_url }
      else c) }
    attach_genres_to_chapter db c0.id item.normalized_genres
  | none =>
    let cid := db.nextId
    let row : ChapterRow :=
      { id := cid
        novel_id := none
        chapter_number := 1
        title := item.title
        slug := some chapter_slug
        content := cd.clean_content
        source_url := some item.source_url
        word_count := cd.word_count
        is_one_shot := true }
    let db := { db with chapters := db.chapters ++ [row], nextId := cid + 1 }
    attach_genres_to_chapter db cid item.normalized_genres

/-- `DatabasePipeline._save_one_shot_chapter` (`src/crawler/pipelines.py`
lines 369-435) with its own `try`/`except`: SAVING status first, then the
body and commit and DONE on success; on an exception (injected, or the
`IndexError` of `item['chapters'][0]` on an empty chapter list) roll back,
set ERROR with the message, and re-raise (the returned message). -/
def save_one_shot (s : Session) (item : NormItem)
    (exc : Option (String × DB)) : Session × Option String :=
  let s := match item.ingestion_job_id with
    | some j => update_job_status s j .SAVING none
    | none => s
  let handle : Session → String → DB → Session × Option String :=
    fun s msg pdb =>
      let s := { s with pending := pdb }
      let s := s.rollback
      let s := match item.ingestion_job_id with
        | some j => update_job_status s j .ERROR (some msg)
        | none => s
      (s, some msg)
  match exc with
  | some e => handle s e.1 e.2
  | none =>
    match item.chapters with
    | [] => handle s "list index out of range" s.pending
    | cd :: _ =>
      let s := { s with pending := one_shot_body s.pending item cd }
      let s := s.commit
      let s := match item.ingestion_job_id with
        | some j => update_job_status s j .DONE none
        | none => s
      (s, none)

/-- `DatabasePipeline.process_item` (`src/crawler/pipelines.py` lines
152-248): dispatch on `is_one_shot`; the outer `except` rolls back,
records ERROR with `str(e)` on the job, and re-raises.  The result is the
session after the run (for a one-shot failure the inner handler has
already rolled back and recorded ERROR; the outer handler then repeats
both, which is what the code does). -/
def process_item_db (s : Session) (item : NormItem)
    (exc : Option (String × DB)) : Session :=
  let r : Session × Option String :=
    if item.is_one_shot then save_one_shot s item exc
    else series_inner s item exc
  match r.2 with
  | none => r.1
  | some msg =>
    let s := r.1.rollback
    match item.ingestion_job_id with
    | some j => update_job_status s j .ERROR (some msg)
    | none => s

/-! ## Projections, invariants and concrete fixtures used by the claims -/

/-- Genre-table well-formedness: primary keys are distinct and below the
id counter.  This is the invariant the real store maintains (`id` is an
autoincrement primary key); newly flushed rows can then never collide
with existing ones. -/
def GWF (db : DB) : Prop :=
  (db.genres.map (fun g => g.id)).Nodup ∧ ∀ g ∈ db.genres, g.id < db.nextId

/-- Chapter-id freshness: every chapter primary key is below the id
counter (same autoincrement-primary-key invariant, chapter table). -/
def CWF (db : DB) : Prop :=
  ∀ c ∈ db.chapters, c.id < db.nextId

/-- Look a genre row up by id and return its slug. -/
def resolveGenre (db : DB) (gid : Nat) : Option String :=
  (db.genres.find? (fun g => g.id = gid)).map (fun g => g.slug)

/-- Status and error message of a job row. -/
def jobView (db : DB) (j : Nat) : Option (IngestionStatus × Option String) :=
  (db.jobs.find? (fun r => r.id = j)).map (fun r => (r.status, r.error_message))

/-- The identifying content of a stored chapter row (everything the
series insert writes apart from the generated id and the constant
`slug = None`, `is_one_shot = False`). -/
def chKey (c : ChapterRow) : Int × String × String × Option String × Nat :=
  (c.chapter_number, c.title, c.content, c.source_url, c.word_count)

/-- The corresponding content of a normalized chapter. -/
def ncKey (c : NormChapter) :
    Int × String × String × Option String × Nat :=
  (c.chapter_number, c.chapter_title, c.clean_content, c.source_url,
    c.word_count)

/-- Run the persistence pipeline twice in sequence (a fresh session per
item, as `process_item` sees one item at a time), returning the final
committed store. -/
def ingest_twice (db : DB) (item1 item2 : NormItem) : DB :=
  (process_item_db
    (Session.fresh ((process_item_db (Session.fresh db) item1 none).committed))
    item2 none).committed

/-- The parse tree BeautifulSoup/lxml produces for the spec's sanitizer
input `"<script>evil()</script><p class='ad-banner'>x</p><p>keep</p>"`
(the parser wraps the fragment in `html`/`head`/`body`, hoisting the
leading `script` into `head`). -/
def c9_input : Html :=
  .elem "html" none none (.ofList [
    .elem "head" none none (.ofList [
      .elem "script" none none (.ofList [.text "evil()"])]),
    .elem "body" none none (.ofList [
      .elem "p" (some "ad-banner") none (.ofList [.text "x"]),
      .elem "p" none none (.ofList [.text "keep"])])])

/-- Fixture: a store holding one queued job (id 1) and nothing else. -/
def dbW : DB :=
  { novels := [], chapters := [], genres := [], novel_genres := []
    chapter_genres := []
    jobs := [{ id := 1, status := .QUEUED, error_message := none }]
    nextId := 10 }

/-- Fixture: a normalized series chapter. -/
def chW1 : NormChapter :=
  { chapter_number := 1, chapter_title := "c1"
    clean_content := "<p>a</p>", word_count := 1
    source_url := none, normalized_genres := ["fantasy"] }

/-- Fixture: a second normalized series chapter. -/
def chW2 : NormChapter :=
  { chapter_number := 2, chapter_title := "c2"
    clean_content := "<p>b</p>", word_count := 1
    source_url := some "cu", normalized_genres := [] }

/-- Fixture: a normalized series item over job 1. -/
def itemW (chs : List NormChapter) (gs : List String) : NormItem :=
  { title := "T", source_url := "u", synopsis := "s"
    status := some "Ongoing", slug := "t"
    normalized_genres := gs, chapters := chs
    word_count := 2, is_one_shot := false, ingestion_job_id := some 1 }

/-- Fixture: a normalized one-shot item over job 1. -/
def itemOS (t : String) (c : NormChapter) : NormItem :=
  { title := t, source_url := "ou", synopsis := "", status := none
    slug := "t", normalized_genres := ["fantasy"], chapters := [c]
    word_count := 1, is_one_shot := true, ingestion_job_id := some 1 }

/-- Fixture for the genre-clearing counterexample: a store with one novel
(id 5, source URL "u") already linked to genre 6. -/
def c5db : DB :=
  { novels := [{ id := 5, title := "old", slug := "o", synopsis := ""
                 source_url := "u", status := .UNKNOWN, word_count := 0 }]
    chapters := []
    genres := [{ id := 6, name := "G", slug := "g" }]
    novel_genres := [(5, 6)]
    chapter_genres := []
    jobs := [{ id := 1, status := .QUEUED, error_message := none }]
    nextId := 10 }

/-- Fixture: a raw one-shot item with direct content and no chapter list
(for the normalization-synthesis witness). -/
def rawOS : RawItem :=
  { title := "My Shot", source_url := "ou", synopsis := "", status := none
    genres := ["Fantasy"], chapters := [], is_one_shot := true
    content := some (.elem "p" none none (.ofList [.text "hello world"]))
    ingestion_job_id := some 1 }

/-- An exception message of 1001 characters (`str(e)` of a long database
error), used to exhibit the missing truncation. -/
def c4_msg : String :=
  String.mk (List.replicate 1001 'x')

/-! ## Claim theorems: normalizer-level claims -/

/-- C3, counterexample.  The claim states that normalizing
`["Sci-Fi", "sci fi", "Science Fiction"]` collapses to the single slug
`science-fiction`, i.e. that the normalized output contains exactly one
element.  It does not: `"sci fi"` (with a space) is not a key of the
mapping table, falls through to the slug fallback, and yields the distinct
slug `sci-fi`, so the output has two elements. -/
theorem c3_counterexample :
    ¬ (normalize_genres ["Sci-Fi", "sci fi", "Science Fiction"]).length = 1 := by
  decide

/-- C3, amended.  Normalizing `["Sci-Fi", "sci fi", "Science Fiction"]`
yields the two slugs `["sci-fi", "science-fiction"]`: `"Sci-Fi"` and
`"Science Fiction"` collapse to `science-fiction` via the mapping table,
while `"sci fi"` misses the table and is slugified to `sci-fi`, so up to
two Genre rows (not one) can be created for these variants. -/
theorem c3_amended :
    normalize_genres ["Sci-Fi", "sci fi", "Science Fiction"]
        = ["sci-fi", "science-fiction"] ∧
    normalize_genre "Sci-Fi" = some "science-fiction" ∧
    normalize_genre "Science Fiction" = some "science-fiction" ∧
    normalize_genre "sci fi" = some "sci-fi" := by
  decide

/-- C9.  Sanitizing
`"<script>evil()</script><p class='ad-banner'>x</p><p>keep</p>"` (parsed
as `c9_input`) yields exactly `<p>keep</p>`: the script node is removed
with its text, the ad-classed paragraph is removed by the junk-pattern
match, the plain paragraph is retained; the word count of the sanitized
output is 1. -/
theorem c9_sanitizer_example :
    clean_html c9_input = "<p>keep</p>" ∧
    count_words (clean_html c9_input) = 1 := by
  decide

set_option maxRecDepth 40000 in
/-- C4, failing run.  The pipeline's `_update_job_status` stores the error
message exactly as passed — `job.error_message = error_message` with no
slicing — so a series run whose persistence raises an exception with a
1001-character message leaves a stored `error_message` of 1001 characters,
which exceeds the claimed 1000-character bound.  (The 1000-character
truncation exists only in `src/ingestion_queue.py`, not in the pipeline.) -/
theorem c4_error_message_not_truncated :
    jobView (process_item_db (Session.fresh dbW) (itemW [chW1] [])
        (some (c4_msg, dbW))).committed 1
      = some (.ERROR, some c4_msg) ∧
    c4_msg.length = 1001 := by
  decide

/-- C8.  For every raw document with `is_one_shot = true`, an empty
chapter list and present direct content, normalization synthesizes exactly
one chapter with `chapter_number = 1` and title equal to the document's
title, whose content is the sanitized direct content, and the document's
total word count equals that chapter's word count. -/
theorem c8_one_shot_synthesis (item : RawItem) (raw : Html)
    (hos : item.is_one_shot = true) (hch : item.chapters = [])
    (hc : item.content = some raw) :
    (normalization_process item).chapters =
      [{ chapter_number := 1
         chapter_title := item.title
         clean_content := clean_html raw
         word_count := count_words (clean_html raw)
         source_url := none
         normalized_genres := [] }] ∧
    (normalization_process item).word_count = count_words (clean_html raw) := by
  unfold normalization_process
  rw [hos, hch, hc]
  exact ⟨rfl, rfl⟩

/-- C8, witness: the synthesis theorem applied to the concrete raw
one-shot `rawOS`. -/
theorem c8_witness :
    rawOS.is_one_shot = true ∧ rawOS.chapters = [] ∧
    rawOS.content = some (.elem "p" none none (.ofList [.text "hello world"])) ∧
    ((normalization_process rawOS).chapters =
      [{ chapter_number := 1
         chapter_title := rawOS.title
         clean_content :=
           clean_html (.elem "p" none none (.ofList [.text "hello world"]))
         word_count := count_words
           (clean_html (.elem "p" none none (.ofList [.text "hello world"])))
         source_url := none
         normalized_genres := [] }] ∧
    (normalization_process rawOS).word_count =
      count_words
        (clean_html (.elem "p" none none (.ofList [.text "hello world"])))) :=
  ⟨rfl, rfl, rfl,
    c8_one_shot_synthesis rawOS
      (.elem "p" none none (.ofList [.text "hello world"])) rfl rfl rfl⟩

/-! ## Lemmas: sortedness and deduplication of `normalize_genres` -/

lemma charListLe_iff (as bs : List Char) :
    charListLe as bs = true ↔ as ≤ bs := by
  have key : ∀ (xs ys : List Char),
      charListLe xs ys = true ↔ ¬ List.Lex (· < ·) ys xs := by
    intro xs
    induction xs with
    | nil =>
      intro ys
      simp only [charListLe]
      constructor
      · intro _ h
        cases h
      · intro _
        trivial
    | cons a as ih =>
      intro ys
      cases ys with
      | nil =>
        simp only [charListLe]
        constructor
        · intro h
          exact absurd h (by simp)
        · intro h
          exact absurd List.Lex.nil h
      | cons b bs =>
        by_cases hab : a = b
        · subst hab
          have hred : charListLe (a :: as) (a :: bs) = charListLe as bs := by
            simp [charListLe]
          rw [hred, ih bs]
          constructor
          · intro h hlt
            cases hlt with
            | cons h' => exact h h'
            | rel h' => exact absurd h' (lt_irrefl a)
          · intro h hlt
            exact h (List.Lex.cons hlt)
        · simp only [charListLe, if_neg hab, decide_eq_true_eq]
          constructor
          · intro h hlt
            cases hlt with
            | cons h' => exact hab rfl
            | rel h' => exact absurd h (asymm h')
          · intro h
            rcases lt_or_gt_of_ne hab with h' | h'
            · exact h'
            · exact absurd
                (show List.Lex (· < ·) (b :: bs) (a :: as) from List.Lex.rel h') h
  rw [key as bs]
  constructor
  · intro h
    exact le_of_not_lt h
  · intro h
    exact not_lt_of_le h

lemma strLe_iff (a b : String) : strLe a b = true ↔ a ≤ b := by
  rw [strLe, charListLe_iff]
  exact (String.le_iff_toList_le).symm

lemma strLe_total (a b : String) : strLe a b = true ∨ strLe b a = true := by
  rw [strLe_iff, strLe_iff]
  exact le_total a b

lemma perm_insertSorted (x : String) (l : List String) :
    List.Perm (insertSorted x l) (x :: l) := by
  induction l with
  | nil => exact List.Perm.refl _
  | cons y ys ih =>
    by_cases h : strLe x y = true
    · simp only [insertSorted, if_pos h]
      exact List.Perm.refl _
    · simp only [insertSorted, if_neg h]
      exact List.Perm.trans (List.Perm.cons y ih) (List.Perm.swap x y ys)

lemma mem_insertSorted {a x : String} {l : List String} :
    a ∈ insertSorted x l ↔ a = x ∨ a ∈ l := by
  rw [(perm_insertSorted x l).mem_iff]
  simp

lemma pairwise_insertSorted (x : String) (l : List String)
    (h : List.Pairwise (fun a b => a ≤ b) l) :
    List.Pairwise (fun a b => a ≤ b) (insertSorted x l) := by
  induction l with
  | nil => simp [insertSorted]
  | cons y ys ih =>
    by_cases hxy : strLe x y = true
    · simp only [insertSorted, if_pos hxy]
      refine List.Pairwise.cons ?_ h
      intro b hb
      have hx : x ≤ y := (strLe_iff x y).mp hxy
      rcases hb with _ | hb
      · exact hx
      · exact le_trans hx (List.rel_of_pairwise_cons h (by assumption))
    · simp only [insertSorted, if_neg hxy]
      have hyx : y ≤ x := by
        rcases strLe_total x y with h' | h'
        · exact absurd h' hxy
        · exact (strLe_iff y x).mp h'
      rcases h with _ | ⟨hy, hys⟩
      refine List.Pairwise.cons ?_ (ih hys)
      intro b hb
      rcases mem_insertSorted.mp hb with rfl | hb
      · exact hyx
      · exact hy b hb

lemma perm_sortStrings (l : List String) : List.Perm (sortStrings l) l := by
  induction l with
  | nil => exact List.Perm.refl _
  | cons x xs ih =>
    exact List.Perm.trans (perm_insertSorted x (sortStrings xs))
      (List.Perm.cons x ih)

lemma pairwise_sortStrings (l : List String) :
    List.Pairwise (fun a b => a ≤ b) (sortStrings l) := by
  induction l with
  | nil => simp [sortStrings]
  | cons x xs ih => exact pairwise_insertSorted x (sortStrings xs) ih

lemma nodup_sortStrings (l : List String) (h : l.Nodup) :
    (sortStrings l).Nodup :=
  (perm_sortStrings l).symm.nodup h

lemma mem_sortStrings {a : String} {l : List String} :
    a ∈ sortStrings l ↔ a ∈ l :=
  (perm_sortStrings l).mem_iff

lemma normalizeGenresAcc_spec (raw_genres : List String) :
    (normalizeGenresAcc raw_genres).Nodup ∧
    ∀ s, s ∈ normalizeGenresAcc raw_genres ↔
      ∃ g ∈ raw_genres, normalize_genre g = some s := by
  have key : ∀ (gs : List String) (acc : List String), acc.Nodup →
      (gs.foldl (fun acc g =>
        match normalize_genre g with
        | some slug => if slug ∈ acc then acc else acc ++ [slug]
        | none => acc) acc).Nodup ∧
      ∀ s, s ∈ gs.foldl (fun acc g =>
        match normalize_genre g with
        | some slug => if slug ∈ acc then acc else acc ++ [slug]
        | none => acc) acc ↔
        (s ∈ acc ∨ ∃ g ∈ gs, normalize_genre g = some s) := by
    intro gs
    induction gs with
    | nil =>
      intro acc hacc
      refine ⟨hacc, ?_⟩
      intro s
      simp
    | cons g gs ih =>
      intro acc hacc
      simp only [List.foldl_cons]
      rcases hng : normalize_genre g with _ | slug
      · have step := ih acc hacc
        refine ⟨step.1, ?_⟩
        intro s
        rw [step.2 s]
        constructor
        · rintro (hs | ⟨g', hg', hs⟩)
          · exact Or.inl hs
          · exact Or.inr ⟨g', List.mem_cons_of_mem g hg', hs⟩
        · rintro (hs | ⟨g', hg', hs⟩)
          · exact Or.inl hs
          · rcases List.mem_cons.mp hg' with rfl | hg'
            · rw [hng] at hs
              cases hs
            · exact Or.inr ⟨g', hg', hs⟩
      · by_cases hmem : slug ∈ acc
        · simp only [if_pos hmem]
          have step := ih acc hacc
          refine ⟨step.1, ?_⟩
          intro s
          rw [step.2 s]
          constructor
          · rintro (hs | ⟨g', hg', hs⟩)
            · exact Or.inl hs
            · exact Or.inr ⟨g', List.mem_cons_of_mem g hg', hs⟩
          · rintro (hs | ⟨g', hg', hs⟩)
            · exact Or.inl hs
            · rcases List.mem_cons.mp hg' with rfl | hg'
              · rw [hng] at hs
                cases hs
                exact Or.inl hmem
              · exact Or.inr ⟨g', hg', hs⟩
        · simp only [if_neg hmem]
          have hacc' : (acc ++ [slug]).Nodup := by
            refine List.Nodup.append hacc (List.nodup_singleton slug) ?_
            intro a ha hb
            rcases List.mem_singleton.mp hb with rfl
            exact hmem ha
          have step := ih (acc ++ [slug]) hacc'
          refine ⟨step.1, ?_⟩
          intro s
          rw [step.2 s]
          constructor
          · rintro (hs | ⟨g', hg', hs⟩)
            · rcases List.mem_append.mp hs with hs | hs
              · exact Or.inl hs
              · rcases List.mem_singleton.mp hs with rfl
                exact Or.inr ⟨g, List.mem_cons_self g gs, hng⟩
            · exact Or.inr ⟨g', List.mem_cons_of_mem g hg', hs⟩
          · rintro (hs | ⟨g', hg', hs⟩)
            · exact Or.inl (List.mem_append.mpr (Or.inl hs))
            · rcases List.mem_cons.mp hg' with rfl | hg'
              · rw [hng] at hs
                cases hs
                exact Or.inl (List.mem_append.mpr (Or.inr (List.mem_singleton.mpr rfl)))
              · exact Or.inr ⟨g', hg', hs⟩
  have h := key raw_genres [] (List.nodup_nil)
  refine ⟨h.1, ?_⟩
  intro s
  rw [normalizeGenresAcc, h.2 s]
  simp

/-- C10.  `normalize_genres` normalizes each tag, discards the failures,
and returns a duplicate-free, lexicographically sorted list of slugs whose
members are exactly the successful normalizations; as a pure function it
is deterministic (two runs on the same input are identical). -/
theorem c10_normalize_genres_sorted_dedup (raw_genres : List String) :
    (normalize_genres raw_genres).Nodup ∧
    List.Pairwise (fun a b => a ≤ b) (normalize_genres raw_genres) ∧
    (∀ s, s ∈ normalize_genres raw_genres ↔
      ∃ g ∈ raw_genres, normalize_genre g = some s) ∧
    normalize_genres raw_genres = normalize_genres raw_genres := by
  have hacc := normalizeGenresAcc_spec raw_genres
  by_cases hraw : raw_genres.isEmpty
  · rcases List.isEmpty_iff.mp hraw with rfl
    refine ⟨by simp [normalize_genres], by simp [normalize_genres], ?_, rfl⟩
    intro s
    simp [normalize_genres]
  · have hng : normalize_genres raw_genres
        = sortStrings (normalizeGenresAcc raw_genres) := by
      simp [normalize_genres, hraw]
    refine ⟨?_, ?_, ?_, rfl⟩
    · rw [hng]
      exact nodup_sortStrings _ hacc.1
    · rw [hng]
      exact pairwise_sortStrings _
    · intro s
      rw [hng, mem_sortStrings]
      exact hacc.2 s

/-! ## Lemmas: the persistence stage -/

lemma find?_append_of_none {α : Type} (p : α → Bool) (l1 l2 : List α)
    (h : ∀ a ∈ l1, p a = false) :
    (l1 ++ l2).find? p = l2.find? p := by
  induction l1 with
  | nil => rfl
  | cons a l1 ih =>
    have ha := h a (List.mem_cons_self a l1)
    simp only [List.cons_append, List.find?, ha]
    exact ih (fun x hx => h x (List.mem_cons_of_mem a hx))

lemma find?_append_of_some {α : Type} (p : α → Bool) (l1 l2 : List α)
    {a : α} (h : l1.find? p = some a) :
    (l1 ++ l2).find? p = some a := by
  induction l1 with
  | nil => cases h
  | cons x l1 ih =>
    by_cases hx : p x
    · simp only [List.find?, hx] at h
      simp only [List.cons_append, List.find?, hx]
      exact h
    · simp only [List.find?, Bool.of_not_eq_true hx] at h
      simp only [List.cons_append, List.find?, Bool.of_not_eq_true hx]
      exact ih h

lemma genre_find?_id_of_nodup {l : List GenreRow} {g : GenreRow}
    (hmem : g ∈ l) (hnd : (l.map (fun x => x.id)).Nodup) :
    l.find? (fun x => x.id = g.id) = some g := by
  induction l with
  | nil => cases hmem
  | cons a l ih =>
    rcases List.mem_cons.mp hmem with rfl | hmem'
    · simp [List.find?]
    · have hne : ¬ a.id = g.id := by
        intro he
        have : g.id ∈ l.map (fun x => x.id) :=
          List.mem_map.mpr ⟨g, hmem', rfl⟩
        rw [List.map_cons] at hnd
        exact (List.nodup_cons.mp hnd).1 (he ▸ this)
      simp only [List.find?, decide_eq_false hne]
      exact ih hmem' ((List.nodup_cons.mp (by rw [List.map_cons] at hnd; exact hnd)).2)

lemma GWF_mono {db db' : DB} (h : GWF db) (hg : db'.genres = db.genres)
    (hn : db.nextId ≤ db'.nextId) : GWF db' := by
  refine ⟨by rw [hg]; exact h.1, ?_⟩
  intro g hgm
  rw [hg] at hgm
  exact lt_of_lt_of_le (h.2 g hgm) hn

lemma resolveGenre_mono {db db' : DB} {gid : Nat} {s : String}
    (h : resolveGenre db gid = some s)
    (hext : ∃ ext, db'.genres = db.genres ++ ext) :
    resolveGenre db' gid = some s := by
  rcases hext with ⟨ext, hext⟩
  rw [resolveGenre] at h ⊢
  rw [hext]
  rcases hf : db.genres.find? (fun g => g.id = gid) with _ | g
  · rw [hf] at h
    cases h
  · rw [hf] at h
    rw [find?_append_of_some _ _ _ hf]
    exact h

lemma gocg_fields (db : DB) (slug : String) :
    (get_or_create_genre db slug).1.novels = db.novels ∧
    (get_or_create_genre db slug).1.chapters = db.chapters ∧
    (get_or_create_genre db slug).1.jobs = db.jobs ∧
    (get_or_create_genre db slug).1.novel_genres = db.novel_genres ∧
    (get_or_create_genre db slug).1.chapter_genres = db.chapter_genres ∧
    (∃ ext, (get_or_create_genre db slug).1.genres = db.genres ++ ext) ∧
    db.nextId ≤ (get_or_create_genre db slug).1.nextId := by
  rcases hf : db.genres.find? (fun g => g.slug = slug) with _ | g <;>
    simp [get_or_create_genre, hf]

lemma gocg_wf (db : DB) (slug : String) (hg : GWF db) :
    GWF (get_or_create_genre db slug).1 ∧
    resolveGenre (get_or_create_genre db slug).1
      (get_or_create_genre db slug).2 = some slug := by
  rcases hf : db.genres.find? (fun g => g.slug = slug) with _ | g
  · constructor
    · refine ⟨?_, ?_⟩
      · simp only [get_or_create_genre, hf, List.map_append, List.map_cons,
          List.map_nil]
        refine List.Nodup.append hg.1 (List.nodup_singleton _) ?_
        intro a ha hb
        rcases List.mem_singleton.mp hb with rfl
        rcases List.mem_map.mp ha with ⟨g', hg', hge⟩
        exact absurd (hge ▸ hg.2 g' hg') (lt_irrefl _)
      · intro g' hg'
        simp only [get_or_create_genre, hf] at hg'
        rcases List.mem_append.mp hg' with h' | h'
        · exact lt_trans (hg.2 g' h') (by simp [get_or_create_genre, hf])
        · rcases List.mem_singleton.mp h' with rfl
          simp [get_or_create_genre, hf]
    · simp only [get_or_create_genre, hf, resolveGenre]
      rw [find?_append_of_none]
      · simp [List.find?]
      · intro a ha
        simp only [decide_eq_false_iff_not]
        exact Nat.ne_of_lt (hg.2 a ha)
  · have hmem := List.mem_of_find?_eq_some hf
    have hslug : g.slug = slug := by
      have := List.find?_some hf
      simpa using this
    constructor
    · simpa [get_or_create_genre, hf] using hg
    · simp only [get_or_create_genre, hf, resolveGenre]
      rw [genre_find?_id_of_nodup hmem hg.1]
      simp [hslug]

lemma attach_fold_spec (nid : Nat) (slugs : List String) : ∀ (db : DB),
    ∃ links ext,
      (slugs.foldl (attach_genres_step nid) db).novels = db.novels ∧
      (slugs.foldl (attach_genres_step nid) db).chapters = db.chapters ∧
      (slugs.foldl (attach_genres_step nid) db).jobs = db.jobs ∧
      (slugs.foldl (attach_genres_step nid) db).chapter_genres
        = db.chapter_genres ∧
      (slugs.foldl (attach_genres_step nid) db).genres = db.genres ++ ext ∧
      db.nextId ≤ (slugs.foldl (attach_genres_step nid) db).nextId ∧
      (slugs.foldl (attach_genres_step nid) db).novel_genres
        = db.novel_genres ++ links ∧
      (∀ p ∈ links, p.1 = nid) ∧
      (GWF db → GWF (slugs.foldl (attach_genres_step nid) db) ∧
        links.map (fun p =>
          resolveGenre (slugs.foldl (attach_genres_step nid) db) p.2)
          = slugs.map some) := by
  induction slugs with
  | nil =>
    intro db
    exact ⟨[], [], rfl, rfl, rfl, rfl, by simp, le_refl _, by simp, by simp,
      fun hg => ⟨hg, by simp⟩⟩
  | cons s ss ih =>
    intro db
    set db1 := attach_genres_step nid db s with hdb1
    have hf := gocg_fields db s
    rcases hf with ⟨hn, hc, hj, hng, hcg, ⟨ext0, hge⟩, hnext⟩
    rcases ih db1 with ⟨links', ext', ihn, ihc, ihj, ihcg, ihge, ihnext,
      ihng, ihfst, ihwf⟩
    refine ⟨(nid, (get_or_create_genre db s).2) :: links', ext0 ++ ext',
      ?_, ?_, ?_, ?_, ?_, ?_, ?_, ?_, ?_⟩
    · rw [List.foldl_cons, ← hdb1, ihn, hdb1, attach_genres_step, hn]
    · rw [List.foldl_cons, ← hdb1, ihc, hdb1, attach_genres_step, hc]
    · rw [List.foldl_cons, ← hdb1, ihj, hdb1, attach_genres_step, hj]
    · rw [List.foldl_cons, ← hdb1, ihcg, hdb1, attach_genres_step, hcg]
    · rw [List.foldl_cons, ← hdb1, ihge, hdb1, attach_genres_step, hge,
        List.append_assoc]
    · calc db.nextId ≤ (get_or_create_genre db s).1.nextId := hnext
        _ = db1.nextId := rfl
        _ ≤ _ := by rw [List.foldl_cons, ← hdb1]; exact ihnext
    · rw [List.foldl_cons, ← hdb1, ihng, hdb1, attach_genres_step, hng]
      simp [List.append_assoc]
    · intro p hp
      rcases List.mem_cons.mp hp with rfl | hp'
      · rfl
      · exact ihfst p hp'
    · intro hg
      have hwf1 := gocg_wf db s hg
      have hgwf1 : GWF db1 := by
        rw [hdb1, attach_genres_step]
        exact GWF_mono hwf1.1 rfl (le_refl _)
      have hres1 : resolveGenre db1 (get_or_create_genre db s).2 = some s := by
        rw [hdb1, attach_genres_step]
        exact hwf1.2
      rcases ihwf hgwf1 with ⟨ihgwf, ihres⟩
      refine ⟨by rw [List.foldl_cons, ← hdb1]; exact ihgwf, ?_⟩
      rw [List.map_cons, List.map_cons]
      simp only [List.cons.injEq]
      constructor
      · rw [List.foldl_cons, ← hdb1]
        exact resolveGenre_mono hres1 ⟨ext', ihge⟩
      · rw [List.foldl_cons, ← hdb1]
        exact ihres

lemma attach_genres_nil (db : DB) (nid : Nat) : attach_genres db nid [] = db :=
  rfl

lemma attach_genres_spec (db : DB) (nid : Nat) (slugs : List String)
    (hne : slugs ≠ []) :
    ∃ links ext,
      (attach_genres db nid slugs).novels = db.novels ∧
      (attach_genres db nid slugs).chapters = db.chapters ∧
      (attach_genres db nid slugs).jobs = db.jobs ∧
      (attach_genres db nid slugs).chapter_genres = db.chapter_genres ∧
      (attach_genres db nid slugs).genres = db.genres ++ ext ∧
      db.nextId ≤ (attach_genres db nid slugs).nextId ∧
      (attach_genres db nid slugs).novel_genres
        = db.novel_genres.filter (fun p => p.1 ≠ nid) ++ links ∧
      (∀ p ∈ links, p.1 = nid) ∧
      (GWF db → GWF (attach_genres db nid slugs) ∧
        links.map (fun p => resolveGenre (attach_genres db nid slugs) p.2)
          = slugs.map some) := by
  have hie : slugs.isEmpty = false := by
    cases slugs with
    | nil => exact absurd rfl hne
    | cons a l => rfl
  have hun : attach_genres db nid slugs
      = slugs.foldl (attach_genres_step nid)
          { db with novel_genres := db.novel_genres.filter (fun p => p.1 ≠ nid) } := by
    rw [attach_genres, hie]
    rfl
  rcases attach_fold_spec nid slugs
      { db with novel_genres := db.novel_genres.filter (fun p => p.1 ≠ nid) } with
    ⟨links, ext, hn, hc, hj, hcg, hge, hnext, hng, hfst, hwf⟩
  rw [← hun] at hn hc hj hcg hge hnext hng hwf
  exact ⟨links, ext, hn, hc, hj, hcg, hge, hnext, hng, hfst, fun hg => hwf hg⟩

lemma attach_ch_fold_frame (cid : Nat) (slugs : List String) : ∀ (db : DB),
    (slugs.foldl (attach_genres_to_chapter_step cid) db).novels = db.novels ∧
    (slugs.foldl (attach_genres_to_chapter_step cid) db).chapters
      = db.chapters ∧
    (slugs.foldl (attach_genres_to_chapter_step cid) db).jobs = db.jobs ∧
    (slugs.foldl (attach_genres_to_chapter_step cid) db).novel_genres
      = db.novel_genres ∧
    (∃ ext, (slugs.foldl (attach_genres_to_chapter_step cid) db).genres
      = db.genres ++ ext) ∧
    db.nextId ≤ (slugs.foldl (attach_genres_to_chapter_step cid) db).nextId ∧
    (GWF db → GWF (slugs.foldl (attach_genres_to_chapter_step cid) db)) := by
  induction slugs with
  | nil =>
    intro db
    exact ⟨rfl, rfl, rfl, rfl, ⟨[], by simp⟩, le_refl _, fun hg => hg⟩
  | cons s ss ih =>
    intro db
    set db1 := attach_genres_to_chapter_step cid db s with hdb1
    rcases gocg_fields db s with ⟨hn, hc, hj, hng, hcg, ⟨ext0, hge⟩, hnext⟩
    rcases ih db1 with ⟨ihn, ihc, ihj, ihng, ⟨ext', ihge⟩, ihnext, ihwf⟩
    refine ⟨?_, ?_, ?_, ?_, ⟨ext0 ++ ext', ?_⟩, ?_, ?_⟩
    · rw [List.foldl_cons, ← hdb1, ihn, hdb1, attach_genres_to_chapter_step, hn]
    · rw [List.foldl_cons, ← hdb1, ihc, hdb1, attach_genres_to_chapter_step, hc]
    · rw [List.foldl_cons, ← hdb1, ihj, hdb1, attach_genres_to_chapter_step, hj]
    · rw [List.foldl_cons, ← hdb1, ihng, hdb1, attach_genres_to_chapter_step, hng]
    · rw [List.foldl_cons, ← hdb1, ihge, hdb1, attach_genres_to_chapter_step, hge,
        List.append_assoc]
    · calc db.nextId ≤ (get_or_create_genre db s).1.nextId := hnext
        _ = db1.nextId := rfl
        _ ≤ _ := by rw [List.foldl_cons, ← hdb1]; exact ihnext
    · intro hg
      have hwf1 := gocg_wf db s hg
      have hgwf1 : GWF db1 := by
        rw [hdb1, attach_genres_to_chapter_step]
        exact GWF_mono hwf1.1 rfl (le_refl _)
      rw [List.foldl_cons, ← hdb1]
      exact ihwf hgwf1

lemma attach_genres_to_chapter_frame (db : DB) (cid : Nat)
    (slugs : List String) :
    (attach_genres_to_chapter db cid slugs).novels = db.novels ∧
    (attach_genres_to_chapter db cid slugs).chapters = db.chapters ∧
    (attach_genres_to_chapter db cid slugs).jobs = db.jobs ∧
    (attach_genres_to_chapter db cid slugs).novel_genres = db.novel_genres ∧
    (∃ ext, (attach_genres_to_chapter db cid slugs).genres
      = db.genres ++ ext) ∧
    db.nextId ≤ (attach_genres_to_chapter db cid slugs).nextId ∧
    (GWF db → GWF (attach_genres_to_chapter db cid slugs)) := by
  by_cases hie : slugs.isEmpty
  · rw [attach_genres_to_chapter, if_pos hie]
    exact ⟨rfl, rfl, rfl, rfl, ⟨[], by simp⟩, le_refl _, fun hg => hg⟩
  · have hun : attach_genres_to_chapter db cid slugs
        = slugs.foldl (attach_genres_to_chapter_step cid)
            { db with chapter_genres :=
              db.chapter_genres.filter (fun p => p.1 ≠ cid) } := by
      rw [attach_genres_to_chapter, if_neg hie]
    rcases attach_ch_fold_frame cid slugs
        { db with chapter_genres :=
          db.chapter_genres.filter (fun p => p.1 ≠ cid) } with
      ⟨hn, hc, hj, hng, hge, hnext, hwf⟩
    rw [← hun] at hn hc hj hng hge hnext hwf
    exact ⟨hn, hc, hj, hng, hge, hnext, fun hg => hwf hg⟩

lemma save_fold_spec (nid : Nat) (chs : List NormChapter) : ∀ (db : DB),
    ∃ rows ext,
      (chs.foldl (save_chapters_step nid) db).chapters = db.chapters ++ rows ∧
      rows.map chKey = chs.map ncKey ∧
      (∀ r ∈ rows, r.novel_id = some nid ∧ r.is_one_shot = false) ∧
      (chs.foldl (save_chapters_step nid) db).novels = db.novels ∧
      (chs.foldl (save_chapters_step nid) db).jobs = db.jobs ∧
      (chs.foldl (save_chapters_step nid) db).novel_genres
        = db.novel_genres ∧
      (chs.foldl (save_chapters_step nid) db).genres = db.genres ++ ext ∧
      db.nextId ≤ (chs.foldl (save_chapters_step nid) db).nextId ∧
      (GWF db → GWF (chs.foldl (save_chapters_step nid) db)) := by
  induction chs with
  | nil =>
    intro db
    exact ⟨[], [], by simp, rfl, by simp, rfl, rfl, rfl, by simp, le_refl _,
      fun hg => hg⟩
  | cons cd chs ih =>
    intro db
    set row : ChapterRow :=
      { id := db.nextId
        novel_id := some nid
        chapter_number := cd.chapter_number
        title := cd.chapter_title
        slug := none
        content := cd.clean_content
        source_url := cd.source_url
        word_count := cd.word_count
        is_one_shot := false } with hrow
    set dbr : DB :=
      { db with chapters := db.chapters ++ [row], nextId := db.nextId + 1 }
      with hdbr
    have hstep : save_chapters_step nid db cd
        = if cd.normalized_genres.isEmpty then dbr
          else attach_genres_to_chapter dbr db.nextId cd.normalized_genres := by
      rw [save_chapters_step]
    have hgr : GWF db → GWF dbr :=
      fun hg => GWF_mono hg rfl (Nat.le_succ _)
    -- facts about db1 := save_chapters_step nid db cd
    set db1 := save_chapters_step nid db cd with hdb1
    have hframe : db1.chapters = db.chapters ++ [row] ∧ db1.novels = db.novels ∧
        db1.jobs = db.jobs ∧ db1.novel_genres = db.novel_genres ∧
        (∃ ext0, db1.genres = db.genres ++ ext0) ∧
        db.nextId ≤ db1.nextId ∧ (GWF db → GWF db1) := by
      rw [hstep]
      by_cases hie : cd.normalized_genres.isEmpty
      · rw [if_pos hie]
        exact ⟨rfl, rfl, rfl, rfl, ⟨[], by simp⟩, Nat.le_succ _, hgr⟩
      · rw [if_neg hie]
        rcases attach_genres_to_chapter_frame dbr db.nextId
            cd.normalized_genres with ⟨an, ac, aj, ang, age, anext, awf⟩
        refine ⟨by rw [ac], by rw [an], by rw [aj], by rw [ang], age,
          le_trans (Nat.le_succ _) anext, fun hg => awf (hgr hg)⟩
    rcases hframe with ⟨f1, f2, f3, f4, ⟨ext0, f5⟩, f6, f7⟩
    rcases ih db1 with ⟨rows', ext', ihch, ihkey, ihattr, ihn, ihj, ihng,
      ihge, ihnext, ihwf⟩
    refine ⟨row :: rows', ext0 ++ ext', ?_, ?_, ?_, ?_, ?_, ?_, ?_, ?_, ?_⟩
    · rw [List.foldl_cons, ← hdb1, ihch, f1]
      simp
    · rw [List.map_cons, List.map_cons, ihkey]
      rfl
    · intro r hr
      rcases List.mem_cons.mp hr with rfl | hr'
      · exact ⟨rfl, rfl⟩
      · exact ihattr r hr'
    · rw [List.foldl_cons, ← hdb1, ihn, f2]
    · rw [List.foldl_cons, ← hdb1, ihj, f3]
    · rw [List.foldl_cons, ← hdb1, ihng, f4]
    · rw [List.foldl_cons, ← hdb1, ihge, f5, List.append_assoc]
    · calc db.nextId ≤ db1.nextId := f6
        _ ≤ _ := by rw [List.foldl_cons, ← hdb1]; exact ihnext
    · intro hg
      rw [List.foldl_cons, ← hdb1]
      exact ihwf (f7 hg)

lemma save_chapters_spec (db : DB) (nid : Nat) (chs : List NormChapter) :
    ∃ rows ext,
      (save_chapters db nid chs).chapters
        = db.chapters.filter (fun c => c.novel_id ≠ some nid) ++ rows ∧
      rows.map chKey = chs.map ncKey ∧
      (∀ r ∈ rows, r.novel_id = some nid ∧ r.is_one_shot = false) ∧
      (save_chapters db nid chs).novels = db.novels ∧
      (save_chapters db nid chs).jobs = db.jobs ∧
      (save_chapters db nid chs).novel_genres = db.novel_genres ∧
      (save_chapters db nid chs).genres = db.genres ++ ext ∧
      db.nextId ≤ (save_chapters db nid chs).nextId ∧
      (GWF db → GWF (save_chapters db nid chs)) := by
  have hun : save_chapters db nid chs
      = chs.foldl (save_chapters_step nid)
          { db with
            chapters := db.chapters.filter (fun c => c.novel_id ≠ some nid)
            chapter_genres := db.chapter_genres.filter (fun p =>
              ¬ (db.chapters.any (fun c => c.id = p.1 ∧ c.novel_id = some nid))) } := by
    rw [save_chapters]
  rcases save_fold_spec nid chs
      { db with
        chapters := db.chapters.filter (fun c => c.novel_id ≠ some nid)
        chapter_genres := db.chapter_genres.filter (fun p =>
          ¬ (db.chapters.any (fun c => c.id = p.1 ∧ c.novel_id = some nid))) } with
    ⟨rows, ext, hch, hkey, hattr, hn, hj, hng, hge, hnext, hwf⟩
  rw [← hun] at hch hn hj hng hge hnext hwf
  exact ⟨rows, ext, hch, hkey, hattr, hn, hj, hng, hge, hnext,
    fun hg => hwf (GWF_mono hg rfl (le_refl _))⟩

lemma attach_genres_frame (db : DB) (nid : Nat) (slugs : List String) :
    (attach_genres db nid slugs).novels = db.novels ∧
    (attach_genres db nid slugs).chapters = db.chapters ∧
    (attach_genres db nid slugs).jobs = db.jobs ∧
    (attach_genres db nid slugs).chapter_genres = db.chapter_genres ∧
    (∃ ext, (attach_genres db nid slugs).genres = db.genres ++ ext) ∧
    db.nextId ≤ (attach_genres db nid slugs).nextId ∧
    (GWF db → GWF (attach_genres db nid slugs)) := by
  cases slugs with
  | nil =>
    rw [attach_genres_nil]
    exact ⟨rfl, rfl, rfl, rfl, ⟨[], by simp⟩, le_refl _, fun hg => hg⟩
  | cons s ss =>
    rcases attach_genres_spec db nid (s :: ss) (by simp) with
      ⟨links, ext, hn, hc, hj, hcg, hge, hnext, hng, hfst, hwf⟩
    exact ⟨hn, hc, hj, hcg, ⟨ext, hge⟩, hnext, fun hg => (hwf hg).1⟩

lemma map_resolve_mono {dbA dbB : DB}
    (hext : ∃ ext, dbB.genres = dbA.genres ++ ext) :
    ∀ (links : List (Nat × Nat)) (ss : List String),
    links.map (fun p => resolveGenre dbA p.2) = ss.map some →
    links.map (fun p => resolveGenre dbB p.2) = ss.map some := by
  intro links
  induction links with
  | nil =>
    intro ss h
    cases ss with
    | nil => rfl
    | cons s ss => cases h
  | cons p links ih =>
    intro ss h
    cases ss with
    | nil => cases h
    | cons s ss =>
      simp only [List.map_cons, List.cons.injEq] at h ⊢
      exact ⟨resolveGenre_mono h.1 hext, ih ss h.2⟩

lemma series_body_spec_new (db : DB) (item : NormItem)
    (hf : db.novels.find? (fun n => n.source_url = item.source_url) = none) :
    ∃ rowN rows ext,
      (series_body db item).novels = db.novels ++ [rowN] ∧
      rowN.id = db.nextId ∧ rowN.source_url = item.source_url ∧
      rowN.title = item.title ∧
      (series_body db item).chapters
        = db.chapters.filter (fun c => c.novel_id ≠ some db.nextId) ++ rows ∧
      rows.map chKey = item.chapters.map ncKey ∧
      (∀ r ∈ rows, r.novel_id = some db.nextId ∧ r.is_one_shot = false) ∧
      (series_body db item).jobs = db.jobs ∧
      (series_body db item).genres = db.genres ++ ext ∧
      (item.normalized_genres = [] →
        (series_body db item).novel_genres = db.novel_genres) ∧
      (item.normalized_genres ≠ [] → ∃ links,
        (series_body db item).novel_genres
          = db.novel_genres.filter (fun p => p.1 ≠ db.nextId) ++ links ∧
        (∀ p ∈ links, p.1 = db.nextId) ∧
        (GWF db → links.map (fun p =>
          resolveGenre (series_body db item) p.2)
          = item.normalized_genres.map some)) ∧
      (GWF db → GWF (series_body db item)) := by
  have hun : series_body db item
      = save_chapters
          (attach_genres (create_novel db item).1 (create_novel db item).2
            item.normalized_genres)
          (create_novel db item).2 item.chapters := by
    rw [series_body, hf]
  have hUwf : GWF db → GWF (create_novel db item).1 :=
    fun hg => GWF_mono hg rfl (Nat.le_succ _)
  rcases attach_genres_frame (create_novel db item).1 (create_novel db item).2
      item.normalized_genres with ⟨an, ac, aj, acg, ⟨aext, age⟩, anext, awf⟩
  rcases save_chapters_spec
      (attach_genres (create_novel db item).1 (create_novel db item).2
        item.normalized_genres)
      (create_novel db item).2 item.chapters with
    ⟨rows, sext, sch, skey, sattr, sn, sj, sng, sge, snext, swf⟩
  refine ⟨{ id := db.nextId
            title := item.title
            slug := item.slug
            synopsis := item.synopsis
            source_url := item.source_url
            status := mapNovelStatus (match item.status with
              | some s => s
              | none => "")
            word_count := item.word_count },
    rows, aext ++ sext, ?_, rfl, rfl, rfl, ?_, skey, ?_, ?_, ?_, ?_, ?_, ?_⟩
  · rw [hun, sn, an]
    rfl
  · rw [hun, sch, ac]
    rfl
  · intro r hr
    exact sattr r hr
  · rw [hun, sj, aj]
    rfl
  · rw [hun, sge, age, List.append_assoc]
    rfl
  · intro hnil
    rw [hun, sng, hnil, attach_genres_nil]
    rfl
  · intro hne
    rcases attach_genres_spec (create_novel db item).1 (create_novel db item).2
        item.normalized_genres hne with
      ⟨links, ext2, bn, bc, bj, bcg, bge, bnext, bng, bfst, bwf⟩
    refine ⟨links, ?_, ?_, ?_⟩
    · rw [hun, sng, bng]
      rfl
    · intro p hp
      exact bfst p hp
    · intro hg
      have hres := (bwf (hUwf hg)).2
      rw [hun]
      exact map_resolve_mono ⟨sext, sge⟩ links item.normalized_genres hres
  · intro hg
    rw [hun]
    exact swf (awf (hUwf hg))

lemma series_body_spec_existing (db : DB) (item : NormItem) (n0 : NovelRow)
    (hf : db.novels.find? (fun n => n.source_url = item.source_url)
      = some n0) :
    ∃ f rows ext,
      (series_body db item).novels = db.novels.map f ∧
      (∀ n : NovelRow, (f n).id = n.id) ∧
      (∀ n : NovelRow, (f n).source_url = n.source_url) ∧
      (series_body db item).chapters
        = db.chapters.filter (fun c => c.novel_id ≠ some n0.id) ++ rows ∧
      rows.map chKey = item.chapters.map ncKey ∧
      (∀ r ∈ rows, r.novel_id = some n0.id ∧ r.is_one_shot = false) ∧
      (series_body db item).jobs = db.jobs ∧
      (series_body db item).genres = db.genres ++ ext ∧
      (item.normalized_genres = [] →
        (series_body db item).novel_genres = db.novel_genres) ∧
      (item.normalized_genres ≠ [] → ∃ links,
        (series_body db item).novel_genres
          = db.novel_genres.filter (fun p => p.1 ≠ n0.id) ++ links ∧
        (∀ p ∈ links, p.1 = n0.id) ∧
        (GWF db → links.map (fun p =>
          resolveGenre (series_body db item) p.2)
          = item.normalized_genres.map some)) ∧
      (GWF db → GWF (series_body db item)) := by
  have hun : series_body db item
      = save_chapters
          (attach_genres (update_novel db n0.id item) n0.id
            item.normalized_genres)
          n0.id item.chapters := by
    rw [series_body, hf]
  have hUwf : GWF db → GWF (update_novel db n0.id item) :=
    fun hg => GWF_mono hg rfl (le_refl _)
  rcases attach_genres_frame (update_novel db n0.id item) n0.id
      item.normalized_genres with ⟨an, ac, aj, acg, ⟨aext, age⟩, anext, awf⟩
  rcases save_chapters_spec
      (attach_genres (update_novel db n0.id item) n0.id
        item.normalized_genres)
      n0.id item.chapters with
    ⟨rows, sext, sch, skey, sattr, sn, sj, sng, sge, snext, swf⟩
  refine ⟨fun n => if n.id = n0.id then
      { n with title := item.title
               synopsis := item.synopsis
               word_count := item.word_count
               status :=
                 match item.status with
                 | some st => if st = "" then n.status else mapNovelStatus st
                 | none => n.status }
    else n,
    rows, aext ++ sext, ?_, ?_, ?_, ?_, skey, sattr, ?_, ?_, ?_, ?_, ?_⟩
  · rw [hun, sn, an]
    rfl
  · intro n
    by_cases h : n.id = n0.id <;> simp [h]
  · intro n
    by_cases h : n.id = n0.id <;> simp [h]
  · rw [hun, sch, ac]
    rfl
  · rw [hun, sj, aj]
    rfl
  · rw [hun, sge, age, List.append_assoc]
    rfl
  · intro hnil
    rw [hun, sng, hnil, attach_genres_nil]
    rfl
  · intro hne
    rcases attach_genres_spec (update_novel db n0.id item) n0.id
        item.normalized_genres hne with
      ⟨links, ext2, bn, bc, bj, bcg, bge, bnext, bng, bfst, bwf⟩
    refine ⟨links, ?_, bfst, ?_⟩
    · rw [hun, sng, bng]
      rfl
    · intro hg
      have hres := (bwf (hUwf hg)).2
      rw [hun]
      exact map_resolve_mono ⟨sext, sge⟩ links item.normalized_genres hres
  · intro hg
    rw [hun]
    exact swf (awf (hUwf hg))

lemma jobsSet_any (jobs : List JobRow) (j : Nat) (st : IngestionStatus)
    (em : Option String) :
    ((jobsSet jobs j st em).any (fun r => r.id = j))
      = (jobs.any (fun r => r.id = j)) := by
  induction jobs with
  | nil => rfl
  | cons r rs ih =>
    by_cases h : r.id = j
    · simp [jobsSet, h]
    · simp [jobsSet, h] at ih ⊢
      exact ih

lemma series_body_jobs (db : DB) (item : NormItem) :
    (series_body db item).jobs = db.jobs := by
  rcases hf : db.novels.find? (fun n => n.source_url = item.source_url) with
    _ | n0
  · rcases series_body_spec_new db item hf with
      ⟨rowN, rows, ext, h1, h2, h3, h4, h5, h6, h7, hj, h9, h10, h11, h12⟩
    exact hj
  · rcases series_body_spec_existing db item n0 hf with
      ⟨f, rows, ext, h1, h2, h3, h4, h5, h6, hj, h8, h9, h10, h11⟩
    exact hj

lemma series_inner_none_jobful (db : DB) (item : NormItem) (j : Nat)
    (hjid : item.ingestion_job_id = some j)
    (hjob : db.jobs.any (fun r => r.id = j) = true) :
    series_inner (Session.fresh db) item none
      = ({ committed :=
             { series_body { db with jobs := jobsSet db.jobs j .SAVING none }
                 item with
               jobs := jobsSet
                 (series_body { db with jobs := jobsSet db.jobs j .SAVING none }
                   item).jobs j .DONE none }
           pending :=
             { series_body { db with jobs := jobsSet db.jobs j .SAVING none }
                 item with
               jobs := jobsSet
                 (series_body { db with jobs := jobsSet db.jobs j .SAVING none }
                   item).jobs j .DONE none }
           commitLog :=
             [{ db with jobs := jobsSet db.jobs j .SAVING none },
              series_body { db with jobs := jobsSet db.jobs j .SAVING none }
                item,
              { series_body { db with jobs := jobsSet db.jobs j .SAVING none }
                  item with
                jobs := jobsSet
                  (series_body
                    { db with jobs := jobsSet db.jobs j .SAVING none }
                    item).jobs j .DONE none }] }, none) := by
  have hjob2 : (series_body { db with jobs := jobsSet db.jobs j .SAVING none }
      item).jobs.any (fun r => r.id = j) = true := by
    rw [series_body_jobs]
    show (jobsSet db.jobs j .SAVING none).any (fun r => r.id = j) = true
    rw [jobsSet_any]
    exact hjob
  rw [series_inner, hjid]
  simp only [update_job_status, Session.fresh]
  rw [if_pos hjob]
  simp only [Session.commit]
  rw [if_pos hjob2]
  rfl

lemma series_inner_none_nojid (db : DB) (item : NormItem)
    (hjid : item.ingestion_job_id = none) :
    series_inner (Session.fresh db) item none
      = ({ committed := series_body db item
           pending := series_body db item
           commitLog := [series_body db item] }, none) := by
  rw [series_inner, hjid]
  rfl

lemma series_inner_none_nojob (db : DB) (item : NormItem) (j : Nat)
    (hjid : item.ingestion_job_id = some j)
    (hjob : db.jobs.any (fun r => r.id = j) = false) :
    series_inner (Session.fresh db) item none
      = ({ committed := series_body db item
           pending := series_body db item
           commitLog := [series_body db item] }, none) := by
  have hjob2 : (series_body db item).jobs.any (fun r => r.id = j) = false := by
    rw [series_body_jobs]
    exact hjob
  simp only [series_inner, hjid, update_job_status, Session.fresh,
    Session.commit, hjob, hjob2]
  simp
  simp only [List.any_eq_false] at hjob2
  intro x hx
  simpa using hjob2 x hx

lemma process_series_none_committed (db : DB) (item : NormItem)
    (hos : item.is_one_shot = false) :
    ∃ J1 J2, (process_item_db (Session.fresh db) item none).committed
      = { series_body { db with jobs := J1 } item with jobs := J2 } := by
  have hif : process_item_db (Session.fresh db) item none
      = match (series_inner (Session.fresh db) item none).2 with
        | none => (series_inner (Session.fresh db) item none).1
        | some msg =>
          match item.ingestion_job_id with
          | some j => update_job_status
              ((series_inner (Session.fresh db) item none).1.rollback) j
              .ERROR (some msg)
          | none => (series_inner (Session.fresh db) item none).1.rollback := by
    rw [process_item_db, hos]
    rfl
  rcases hjid : item.ingestion_job_id with _ | j
  · rw [hif, series_inner_none_nojid db item hjid]
    exact ⟨db.jobs, (series_body db item).jobs, rfl⟩
  · by_cases hjob : db.jobs.any (fun r => r.id = j) = true
    · rw [hif, series_inner_none_jobful db item j hjid hjob]
      exact ⟨jobsSet db.jobs j .SAVING none,
        jobsSet (series_body { db with jobs := jobsSet db.jobs j .SAVING none }
          item).jobs j .DONE none, rfl⟩
    · rw [hif, series_inner_none_nojob db item j hjid
        (Bool.eq_false_iff.mpr hjob)]
      exact ⟨db.jobs, (series_body db item).jobs, rfl⟩

lemma series_fail_run (db : DB) (item : NormItem) (j : Nat) (msg : String)
    (pdb : DB) (hjid : item.ingestion_job_id = some j)
    (hjob : db.jobs.any (fun r => r.id = j) = true)
    (hos : item.is_one_shot = false) :
    process_item_db (Session.fresh db) item (some (msg, pdb))
      = { committed :=
            { db with
              jobs := jobsSet (jobsSet db.jobs j IngestionStatus.SAVING none)
                j IngestionStatus.ERROR (some msg) }
          pending :=
            { db with
              jobs := jobsSet (jobsSet db.jobs j IngestionStatus.SAVING none)
                j IngestionStatus.ERROR (some msg) }
          commitLog :=
            [{ db with jobs := jobsSet db.jobs j IngestionStatus.SAVING none },
             { db with
               jobs := jobsSet (jobsSet db.jobs j IngestionStatus.SAVING none)
                 j IngestionStatus.ERROR (some msg) }] } := by
  have hjobJ : ((jobsSet db.jobs j .SAVING none).any (fun r => r.id = j))
      = true := by
    rw [jobsSet_any]
    exact hjob
  simp only [process_item_db, hos, series_inner, hjid, update_job_status,
    Session.fresh, Session.commit, Session.rollback, hjob, hjobJ,
    eq_self_iff_true, if_true]
  simp
  simpa using hjobJ

lemma jobsSet_find_err (jobs : List JobRow) (j : Nat) (m : String)
    (hjob : jobs.any (fun r => r.id = j) = true) (hm : ¬ m = "") :
    ((jobsSet jobs j .ERROR (some m)).find? (fun r => r.id = j)).map
      (fun r => (r.status, r.error_message)) = some (.ERROR, some m) := by
  induction jobs with
  | nil => cases hjob
  | cons r rs ih =>
    by_cases h : r.id = j
    · simp [jobsSet, List.find?, h, hm]
    · have hrs : rs.any (fun r => r.id = j) = true := by
        simp only [List.any_cons, Bool.or_eq_true, decide_eq_true_eq] at hjob
        rcases hjob with h' | h'
        · exact absurd h' h
        · exact h'
      simp only [jobsSet, List.map_cons, if_neg h, List.find?,
        decide_eq_false h]
      exact ih hrs

lemma jobsSet_find_status (jobs : List JobRow) (j : Nat)
    (st : IngestionStatus) (em : Option String)
    (hjob : jobs.any (fun r => r.id = j) = true) :
    (((jobsSet jobs j st em).find? (fun r => r.id = j)).map
      (fun r => r.status)) = some st := by
  induction jobs with
  | nil => cases hjob
  | cons r rs ih =>
    by_cases h : r.id = j
    · simp [jobsSet, List.find?, h]
    · have hrs : rs.any (fun r => r.id = j) = true := by
        simp only [List.any_cons, Bool.or_eq_true, decide_eq_true_eq] at hjob
        rcases hjob with h' | h'
        · exact absurd h' h
        · exact h'
      simp only [jobsSet, List.map_cons, if_neg h, List.find?,
        decide_eq_false h]
      exact ih hrs

/-- C1.  For every series-path persistence run in which an exception (with
message `msg`, raised after the pending state had reached any partially
mutated state `pdb`) occurs during steps 1-3, all Novel, Genre-association
and Chapter changes of the run are rolled back as one unit — the committed
content tables equal the initial ones, so no partial chapter set is
visible — and the job is set to ERROR carrying the exception's message. -/
theorem c1_series_exception_rolls_back (db : DB) (item : NormItem) (j : Nat)
    (msg : String) (pdb : DB)
    (hos : item.is_one_shot = false)
    (hjid : item.ingestion_job_id = some j)
    (hjob : db.jobs.any (fun r => r.id = j) = true)
    (hm : ¬ msg = "") :
    (process_item_db (Session.fresh db) item
        (some (msg, pdb))).committed.contentPart = db.contentPart ∧
    jobView (process_item_db (Session.fresh db) item
        (some (msg, pdb))).committed j = some (.ERROR, some msg) := by
  rw [series_fail_run db item j msg pdb hjid hjob hos]
  constructor
  · rfl
  · have hjobJ : ((jobsSet db.jobs j .SAVING none).any (fun r => r.id = j))
        = true := by
      rw [jobsSet_any]
      exact hjob
    show ((jobsSet (jobsSet db.jobs j .SAVING none) j .ERROR
        (some msg)).find? (fun r => r.id = j)).map
        (fun r => (r.status, r.error_message)) = some (.ERROR, some msg)
    exact jobsSet_find_err _ j msg hjobJ hm

/-- C1, witness: the rollback theorem applied to the concrete store `dbW`,
the series item over job 1, message `"boom"`, and a partially mutated
pending state. -/
theorem c1_witness :
    (itemW [chW1] ["fantasy"]).is_one_shot = false ∧
    (itemW [chW1] ["fantasy"]).ingestion_job_id = some 1 ∧
    dbW.jobs.any (fun r => r.id = 1) = true ∧
    ¬ "boom" = "" ∧
    ((process_item_db (Session.fresh dbW) (itemW [chW1] ["fantasy"])
        (some ("boom", c5db))).committed.contentPart = dbW.contentPart ∧
    jobView (process_item_db (Session.fresh dbW) (itemW [chW1] ["fantasy"])
        (some ("boom", c5db))).committed 1 = some (.ERROR, some "boom")) :=
  ⟨rfl, rfl, by decide, by decide,
    c1_series_exception_rolls_back dbW (itemW [chW1] ["fantasy"]) 1 "boom"
      c5db rfl rfl (by decide) (by decide)⟩

lemma one_shot_body_jobs (db : DB) (item : NormItem) (cd : NormChapter) :
    (one_shot_body db item cd).jobs = db.jobs := by
  rcases hf : db.chapters.find? (fun c =>
      c.slug = some (generate_slug item.title) ∧ c.is_one_shot = true) with
    _ | c0
  · simp only [one_shot_body, hf]
    exact (attach_genres_to_chapter_frame _ _ _).2.2.1
  · simp only [one_shot_body, hf]
    exact (attach_genres_to_chapter_frame _ _ _).2.2.1

lemma os_inner_none_jobful (db : DB) (item : NormItem) (j : Nat)
    (cd : NormChapter) (rest : List NormChapter)
    (hjid : item.ingestion_job_id = some j)
    (hjob : db.jobs.any (fun r => r.id = j) = true)
    (hch : item.chapters = cd :: rest) :
    save_one_shot (Session.fresh db) item none
      = ({ committed :=
             { one_shot_body { db with jobs := jobsSet db.jobs j .SAVING none }
                 item cd with
               jobs := jobsSet
                 (one_shot_body
                   { db with jobs := jobsSet db.jobs j .SAVING none }
                   item cd).jobs j .DONE none }
           pending :=
             { one_shot_body { db with jobs := jobsSet db.jobs j .SAVING none }
                 item cd with
               jobs := jobsSet
                 (one_shot_body
                   { db with jobs := jobsSet db.jobs j .SAVING none }
                   item cd).jobs j .DONE none }
           commitLog :=
             [{ db with jobs := jobsSet db.jobs j .SAVING none },
              one_shot_body { db with jobs := jobsSet db.jobs j .SAVING none }
                item cd,
              { one_shot_body
                  { db with jobs := jobsSet db.jobs j .SAVING none }
                  item cd with
                jobs := jobsSet
                  (one_shot_body
                    { db with jobs := jobsSet db.jobs j .SAVING none }
                    item cd).jobs j .DONE none }] }, none) := by
  have hjob2 : (one_shot_body
      { db with jobs := jobsSet db.jobs j .SAVING none }
      item cd).jobs.any (fun r => r.id = j) = true := by
    rw [one_shot_body_jobs]
    show (jobsSet db.jobs j .SAVING none).any (fun r => r.id = j) = true
    rw [jobsSet_any]
    exact hjob
  rw [save_one_shot, hjid, hch]
  simp only [update_job_status, Session.fresh]
  rw [if_pos hjob]
  simp only [Session.commit]
  rw [if_pos hjob2]
  rfl

lemma os_inner_none_nojid (db : DB) (item : NormItem)
    (cd : NormChapter) (rest : List NormChapter)
    (hjid : item.ingestion_job_id = none)
    (hch : item.chapters = cd :: rest) :
    save_one_shot (Session.fresh db) item none
      = ({ committed := one_shot_body db item cd
           pending := one_shot_body db item cd
           commitLog := [one_shot_body db item cd] }, none) := by
  rw [save_one_shot, hjid, hch]
  rfl

lemma os_inner_none_nojob (db : DB) (item : NormItem) (j : Nat)
    (cd : NormChapter) (rest : List NormChapter)
    (hjid : item.ingestion_job_id = some j)
    (hjob : db.jobs.any (fun r => r.id = j) = false)
    (hch : item.chapters = cd :: rest) :
    save_one_shot (Session.fresh db) item none
      = ({ committed := one_shot_body db item cd
           pending := one_shot_body db item cd
           commitLog := [one_shot_body db item cd] }, none) := by
  have hjob2 : (one_shot_body db item cd).jobs.any (fun r => r.id = j)
      = false := by
    rw [one_shot_body_jobs]
    exact hjob
  rw [save_one_shot, hjid, hch]
  simp only [update_job_status, Session.fresh, Session.commit, hjob, hjob2]
  simp
  simp only [List.any_eq_false] at hjob2
  intro x hx
  simpa using hjob2 x hx

lemma process_os_none_committed (db : DB) (item : NormItem)
    (cd : NormChapter) (rest : List NormChapter)
    (hos : item.is_one_shot = true)
    (hch : item.chapters = cd :: rest) :
    ∃ J1 J2, (process_item_db (Session.fresh db) item none).committed
      = { one_shot_body { db with jobs := J1 } item cd with jobs := J2 } := by
  have hif : process_item_db (Session.fresh db) item none
      = match (save_one_shot (Session.fresh db) item none).2 with
        | none => (save_one_shot (Session.fresh db) item none).1
        | some msg =>
          match item.ingestion_job_id with
          | some j => update_job_status
              ((save_one_shot (Session.fresh db) item none).1.rollback) j
              .ERROR (some msg)
          | none => (save_one_shot (Session.fresh db) item none).1.rollback := by
    rw [process_item_db, hos]
    rfl
  rcases hjid : item.ingestion_job_id with _ | j
  · rw [hif, os_inner_none_nojid db item cd rest hjid hch]
    exact ⟨db.jobs, (one_shot_body db item cd).jobs, rfl⟩
  · by_cases hjob : db.jobs.any (fun r => r.id = j) = true
    · rw [hif, os_inner_none_jobful db item j cd rest hjid hjob hch]
      exact ⟨jobsSet db.jobs j .SAVING none,
        jobsSet (one_shot_body
          { db with jobs := jobsSet db.jobs j .SAVING none } item cd).jobs
          j .DONE none, rfl⟩
    · rw [hif, os_inner_none_nojob db item j cd rest hjid
        (Bool.eq_false_iff.mpr hjob) hch]
      exact ⟨db.jobs, (one_shot_body db item cd).jobs, rfl⟩

lemma os_fail_run (db : DB) (item : NormItem) (j : Nat) (msg : String)
    (pdb : DB) (hjid : item.ingestion_job_id = some j)
    (hjob : db.jobs.any (fun r => r.id = j) = true)
    (hos : item.is_one_shot = true) :
    process_item_db (Session.fresh db) item (some (msg, pdb))
      = { committed :=
            { db with
              jobs := jobsSet (jobsSet (jobsSet db.jobs j
                IngestionStatus.SAVING none) j IngestionStatus.ERROR
                (some msg)) j IngestionStatus.ERROR (some msg) }
          pending :=
            { db with
              jobs := jobsSet (jobsSet (jobsSet db.jobs j
                IngestionStatus.SAVING none) j IngestionStatus.ERROR
                (some msg)) j IngestionStatus.ERROR (some msg) }
          commitLog :=
            [{ db with jobs := jobsSet db.jobs j IngestionStatus.SAVING none },
             { db with
               jobs := jobsSet (jobsSet db.jobs j IngestionStatus.SAVING none)
                 j IngestionStatus.ERROR (some msg) },
             { db with
               jobs := jobsSet (jobsSet (jobsSet db.jobs j
                 IngestionStatus.SAVING none) j IngestionStatus.ERROR
                 (some msg)) j IngestionStatus.ERROR (some msg) }] } := by
  have hjobJ : ((jobsSet db.jobs j .SAVING none).any (fun r => r.id = j))
      = true := by
    rw [jobsSet_any]
    exact hjob
  have hjobE : ((jobsSet (jobsSet db.jobs j .SAVING none) j .ERROR
      (some msg)).any (fun r => r.id = j)) = true := by
    rw [jobsSet_any, jobsSet_any]
    exact hjob
  simp only [process_item_db, hos, save_one_shot, hjid, update_job_status,
    Session.fresh, Session.commit, Session.rollback, hjob, hjobJ, hjobE,
    eq_self_iff_true, if_true]
  simp

/-- C7.  For every ingested document processed over an existing job: the
job status is set to SAVING and committed before any content write (the
first committed snapshot differs from the initial store only in the jobs
table and carries SAVING), the content transaction is committed without
touching the jobs table, DONE or ERROR is committed only afterwards (the
last committed snapshot differs from its predecessor only in the jobs
table), and on a failed run no committed snapshot ever differs from the
initial store in the content tables.  A status write and a content write
are never part of the same commit. -/
theorem c7_status_commit_discipline (db : DB) (item : NormItem) (j : Nat)
    (hjid : item.ingestion_job_id = some j)
    (hjob : db.jobs.any (fun r => r.id = j) = true)
    (hch : item.chapters ≠ []) :
    (∃ d1 d2 d3,
      (process_item_db (Session.fresh db) item none).commitLog
        = [d1, d2, d3] ∧
      d1.contentPart = db.contentPart ∧
      (d1.jobs.find? (fun r => r.id = j)).map (fun r => r.status)
        = some .SAVING ∧
      d2.jobs = d1.jobs ∧
      d3.contentPart = d2.contentPart ∧
      (d3.jobs.find? (fun r => r.id = j)).map (fun r => r.status)
        = some .DONE) ∧
    (∀ msg pdb, ∃ d1 rest dl,
      (process_item_db (Session.fresh db) item
        (some (msg, pdb))).commitLog = d1 :: rest ∧
      (d1.jobs.find? (fun r => r.id = j)).map (fun r => r.status)
        = some .SAVING ∧
      (d1 :: rest).getLast? = some dl ∧
      (dl.jobs.find? (fun r => r.id = j)).map (fun r => r.status)
        = some .ERROR ∧
      ∀ d ∈ d1 :: rest, d.contentPart = db.contentPart) := by
  have hjobJ : ((jobsSet db.jobs j .SAVING none).any (fun r => r.id = j))
      = true := by
    rw [jobsSet_any]
    exact hjob
  rcases hosv : item.is_one_shot with _ | _
  · -- series path
    constructor
    · have hif : process_item_db (Session.fresh db) item none
          = (series_inner (Session.fresh db) item none).1 := by
        rw [process_item_db, hosv]
        rfl
      rw [hif, series_inner_none_jobful db item j hjid hjob]
      refine ⟨_, _, _, rfl, rfl, jobsSet_find_status db.jobs j .SAVING none
        hjob, ?_, rfl, ?_⟩
      · exact series_body_jobs _ item
      · show ((jobsSet (series_body
            { db with jobs := jobsSet db.jobs j .SAVING none } item).jobs
            j .DONE none).find? (fun r => r.id = j)).map (fun r => r.status)
          = some IngestionStatus.DONE
        apply jobsSet_find_status
        rw [series_body_jobs]
        exact hjobJ
    · intro msg pdb
      rw [series_fail_run db item j msg pdb hjid hjob hosv]
      refine ⟨_, [_], _, rfl,
        jobsSet_find_status db.jobs j .SAVING none hjob, rfl, ?_, ?_⟩
      · show ((jobsSet (jobsSet db.jobs j .SAVING none) j .ERROR
            (some msg)).find? (fun r => r.id = j)).map (fun r => r.status)
          = some IngestionStatus.ERROR
        exact jobsSet_find_status _ j .ERROR (some msg) hjobJ
      · intro d hd
        rcases List.mem_cons.mp hd with rfl | hd'
        · rfl
        · rcases List.mem_singleton.mp hd' with rfl
          rfl
  · -- one-shot path
    rcases hcc : item.chapters with _ | ⟨cd, rest⟩
    · exact absurd hcc hch
    constructor
    · rw [process_item_db, hosv,
        os_inner_none_jobful db item j cd rest hjid hjob hcc]
      refine ⟨_, _, _, rfl, rfl, jobsSet_find_status db.jobs j .SAVING none
        hjob, ?_, rfl, ?_⟩
      · exact one_shot_body_jobs _ item cd
      · show ((jobsSet (one_shot_body
            { db with jobs := jobsSet db.jobs j .SAVING none } item cd).jobs
            j .DONE none).find? (fun r => r.id = j)).map (fun r => r.status)
          = some IngestionStatus.DONE
        apply jobsSet_find_status
        rw [one_shot_body_jobs]
        exact hjobJ
    · intro msg pdb
      rw [os_fail_run db item j msg pdb hjid hjob hosv]
      refine ⟨_, [_, _], _, rfl,
        jobsSet_find_status db.jobs j .SAVING none hjob, rfl, ?_, ?_⟩
      · show ((jobsSet (jobsSet (jobsSet db.jobs j .SAVING none) j .ERROR
            (some msg)) j .ERROR (some msg)).find?
            (fun r => r.id = j)).map (fun r => r.status)
          = some IngestionStatus.ERROR
        apply jobsSet_find_status
        rw [jobsSet_any]
        exact hjobJ
      · intro d hd
        rcases List.mem_cons.mp hd with rfl | hd'
        · rfl
        · rcases List.mem_cons.mp hd' with rfl | hd''
          · rfl
          · rcases List.mem_singleton.mp hd'' with rfl
            rfl

/-- C7, witness: the commit-discipline theorem applied to the concrete
store `dbW` and the series item over job 1. -/
theorem c7_witness :
    (itemW [chW1] ["fantasy"]).ingestion_job_id = some 1 ∧
    dbW.jobs.any (fun r => r.id = 1) = true ∧
    (itemW [chW1] ["fantasy"]).chapters ≠ [] ∧
    ((∃ d1 d2 d3,
      (process_item_db (Session.fresh dbW) (itemW [chW1] ["fantasy"])
          none).commitLog
        = [d1, d2, d3] ∧
      d1.contentPart = dbW.contentPart ∧
      (d1.jobs.find? (fun r => r.id = 1)).map (fun r => r.status)
        = some .SAVING ∧
      d2.jobs = d1.jobs ∧
      d3.contentPart = d2.contentPart ∧
      (d3.jobs.find? (fun r => r.id = 1)).map (fun r => r.status)
        = some .DONE) ∧
    (∀ msg pdb, ∃ d1 rest dl,
      (process_item_db (Session.fresh dbW) (itemW [chW1] ["fantasy"])
        (some (msg, pdb))).commitLog = d1 :: rest ∧
      (d1.jobs.find? (fun r => r.id = 1)).map (fun r => r.status)
        = some .SAVING ∧
      (d1 :: rest).getLast? = some dl ∧
      (dl.jobs.find? (fun r => r.id = 1)).map (fun r => r.status)
        = some .ERROR ∧
      ∀ d ∈ d1 :: rest, d.contentPart = dbW.contentPart)) :=
  ⟨rfl, by decide, by decide,
    c7_status_commit_discipline dbW (itemW [chW1] ["fantasy"]) 1 rfl
      (by decide) (by decide)⟩

lemma map_id_of {α : Type} (l : List α) (f : α → α)
    (h : ∀ a ∈ l, f a = a) : l.map f = l := by
  induction l with
  | nil => rfl
  | cons a l ih =>
    rw [List.map_cons, h a (List.mem_cons_self a l),
      ih (fun x hx => h x (List.mem_cons_of_mem a hx))]

lemma one_shot_body_create (db : DB) (item : NormItem) (cd : NormChapter)
    (hfind : db.chapters.find? (fun c =>
      c.slug = some (generate_slug item.title) ∧ c.is_one_shot = true)
      = none) :
    (one_shot_body db item cd).chapters = db.chapters ++
      [{ id := db.nextId
         novel_id := none
         chapter_number := 1
         title := item.title
         slug := some (generate_slug item.title)
         content := cd.clean_content
         source_url := some item.source_url
         word_count := cd.word_count
         is_one_shot := true }] := by
  simp only [one_shot_body, hfind]
  exact (attach_genres_to_chapter_frame _ _ _).2.1

lemma one_shot_body_update (db : DB) (item : NormItem) (cd : NormChapter)
    (row0 : ChapterRow)
    (hfind : db.chapters.find? (fun c =>
      c.slug = some (generate_slug item.title) ∧ c.is_one_shot = true)
      = some row0) :
    (one_shot_body db item cd).chapters = db.chapters.map (fun c =>
      if c.id = row0.id then
        { c with title := item.title
                 content := cd.clean_content
                 word_count := cd.word_count
                 source_url := some item.source_url }
      else c) := by
  simp only [one_shot_body, hfind]
  exact (attach_genres_to_chapter_frame _ _ _).2.1

/-- C6.  Two one-shot ingestions whose titles derive the same slug affect
the same Chapter row: the second run finds the row created by the first
by `(slug, is_one_shot = true)` and updates it in place, so exactly one
one-shot chapter row with that slug exists afterwards, it still carries
the id assigned by the first run, its fields are the second run's values,
and the chapter count has grown by exactly one over both runs. -/
theorem c6_one_shot_single_row (db : DB) (item1 item2 : NormItem)
    (cd1 cd2 : NormChapter) (rest1 rest2 : List NormChapter)
    (hos1 : item1.is_one_shot = true) (hos2 : item2.is_one_shot = true)
    (hch1 : item1.chapters = cd1 :: rest1)
    (hch2 : item2.chapters = cd2 :: rest2)
    (hslug : generate_slug item2.title = generate_slug item1.title)
    (hnone : ∀ c ∈ db.chapters,
      ¬ (c.slug = some (generate_slug item1.title) ∧ c.is_one_shot = true))
    (hcw : ∀ c ∈ db.chapters, c.id < db.nextId) :
    ∃ row,
      (ingest_twice db item1 item2).chapters.filter (fun c =>
        c.slug = some (generate_slug item1.title) ∧ c.is_one_shot = true)
        = [row] ∧
      row.id = db.nextId ∧
      row.title = item2.title ∧
      row.content = cd2.clean_content ∧
      row.word_count = cd2.word_count ∧
      row.source_url = some item2.source_url ∧
      (ingest_twice db item1 item2).chapters.length
        = db.chapters.length + 1 := by
  rcases process_os_none_committed db item1 cd1 rest1 hos1 hch1 with
    ⟨J1, J2, hE1⟩
  set sl := generate_slug item1.title with hsl
  set row1 : ChapterRow :=
    { id := db.nextId
      novel_id := none
      chapter_number := 1
      title := item1.title
      slug := some sl
      content := cd1.clean_content
      source_url := some item1.source_url
      word_count := cd1.word_count
      is_one_shot := true } with hrow1
  have hfind1 : ({ db with jobs := J1 } : DB).chapters.find? (fun c =>
      c.slug = some (generate_slug item1.title) ∧ c.is_one_shot = true)
      = none := by
    rw [List.find?_eq_none]
    intro c hc
    simpa using hnone c hc
  have hch1c : ((process_item_db (Session.fresh db) item1 none).committed).chapters
      = db.chapters ++ [row1] := by
    rw [hE1]
    show (one_shot_body { db with jobs := J1 } item1 cd1).chapters
      = db.chapters ++ [row1]
    rw [one_shot_body_create _ _ _ hfind1]
  -- second run
  rcases process_os_none_committed
      ((process_item_db (Session.fresh db) item1 none).committed)
      item2 cd2 rest2 hos2 hch2 with ⟨J1', J2', hE2⟩
  have hfind2 : ({ (process_item_db (Session.fresh db) item1 none).committed
        with jobs := J1' } : DB).chapters.find? (fun c =>
      c.slug = some (generate_slug item2.title) ∧ c.is_one_shot = true)
      = some row1 := by
    show ((process_item_db (Session.fresh db) item1 none).committed).chapters.find?
        (fun c => c.slug = some (generate_slug item2.title)
          ∧ c.is_one_shot = true) = some row1
    rw [hch1c, hslug]
    rw [find?_append_of_none]
    · simp [hrow1]
    · intro c hc
      simpa using hnone c hc
  set row2 : ChapterRow :=
    { id := db.nextId
      novel_id := none
      chapter_number := 1
      title := item2.title
      slug := some sl
      content := cd2.clean_content
      source_url := some item2.source_url
      word_count := cd2.word_count
      is_one_shot := true } with hrow2
  have hch2c : (ingest_twice db item1 item2).chapters
      = db.chapters ++ [row2] := by
    rw [ingest_twice, hE2]
    show (one_shot_body
        { (process_item_db (Session.fresh db) item1 none).committed
          with jobs := J1' } item2 cd2).chapters
      = db.chapters ++ [row2]
    rw [one_shot_body_update _ _ _ row1 hfind2]
    show ((process_item_db (Session.fresh db) item1 none).committed).chapters.map
        _ = db.chapters ++ [row2]
    rw [hch1c, List.map_append]
    have hdbpart : db.chapters.map (fun c =>
        if c.id = row1.id then
          { c with title := item2.title
                   content := cd2.clean_content
                   word_count := cd2.word_count
                   source_url := some item2.source_url }
        else c) = db.chapters := by
      apply map_id_of
      intro c hc
      rw [if_neg]
      show ¬ c.id = row1.id
      exact Nat.ne_of_lt (hcw c hc)
    rw [hdbpart]
    simp [hrow1, hrow2]
  refine ⟨row2, ?_, rfl, rfl, rfl, rfl, rfl, ?_⟩
  · rw [hch2c, List.filter_append]
    have h1 : db.chapters.filter (fun c =>
        c.slug = some sl ∧ c.is_one_shot = true) = [] := by
      rw [List.filter_eq_nil_iff]
      intro c hc
      simpa using hnone c hc
    rw [h1]
    simp [hrow2]
  · rw [hch2c]
    simp

/-- C6, witness: the one-shot single-row theorem applied to two concrete
one-shot items whose titles `"My Shot"` and `"my shot!"` derive the same
slug `my-shot`, over the empty store `dbW`. -/
theorem c6_witness :
    (itemOS "My Shot" chW1).is_one_shot = true ∧
    (itemOS "my shot!" chW2).is_one_shot = true ∧
    (itemOS "My Shot" chW1).chapters = chW1 :: [] ∧
    (itemOS "my shot!" chW2).chapters = chW2 :: [] ∧
    generate_slug (itemOS "my shot!" chW2).title
      = generate_slug (itemOS "My Shot" chW1).title ∧
    (∀ c ∈ dbW.chapters,
      ¬ (c.slug = some (generate_slug (itemOS "My Shot" chW1).title)
        ∧ c.is_one_shot = true)) ∧
    (∀ c ∈ dbW.chapters, c.id < dbW.nextId) ∧
    (∃ row,
      (ingest_twice dbW (itemOS "My Shot" chW1)
        (itemOS "my shot!" chW2)).chapters.filter (fun c =>
        c.slug = some (generate_slug (itemOS "My Shot" chW1).title)
          ∧ c.is_one_shot = true)
        = [row] ∧
      row.id = dbW.nextId ∧
      row.title = (itemOS "my shot!" chW2).title ∧
      row.content = chW2.clean_content ∧
      row.word_count = chW2.word_count ∧
      row.source_url = some (itemOS "my shot!" chW2).source_url ∧
      (ingest_twice dbW (itemOS "My Shot" chW1)
        (itemOS "my shot!" chW2)).chapters.length
        = dbW.chapters.length + 1) :=
  ⟨rfl, rfl, rfl, rfl, by decide, by decide, by decide,
    c6_one_shot_single_row dbW (itemOS "My Shot" chW1)
      (itemOS "my shot!" chW2) chW1 chW2 [] [] rfl rfl rfl rfl (by decide)
      (by decide) (by decide)⟩

lemma filter_ne_then_eq (l : List ChapterRow) (nid : Nat) :
    (l.filter (fun c => c.novel_id ≠ some nid)).filter
      (fun c => c.novel_id = some nid) = [] := by
  rw [List.filter_eq_nil_iff]
  intro c hc
  have hmem := List.of_mem_filter hc
  simp only [decide_eq_true_eq] at hmem ⊢
  exact hmem

/-- C2.  Ingesting the same source URL twice along the series path leaves
exactly one Novel row with that URL, and afterwards the chapter rows
attached to that novel are exactly the fresh inserts of the second run:
in order, they carry the second run's chapter numbers, titles, sanitized
contents, source URLs and word counts — no duplicates and nothing
surviving from the first run. -/
theorem c2_reingest_same_url (db : DB) (item1 item2 : NormItem) (u : String)
    (h1 : item1.is_one_shot = false) (h2 : item2.is_one_shot = false)
    (hu1 : item1.source_url = u) (hu2 : item2.source_url = u)
    (h0 : ∀ n ∈ db.novels, ¬ n.source_url = u) :
    ∃ nid rows,
      ((ingest_twice db item1 item2).novels.filter
        (fun n => n.source_url = u)).map (fun n => n.id) = [nid] ∧
      (ingest_twice db item1 item2).chapters.filter
        (fun c => c.novel_id = some nid) = rows ∧
      rows.map chKey = item2.chapters.map ncKey := by
  rcases process_series_none_committed db item1 h1 with ⟨J1, J2, hE1⟩
  have hf1 : ({ db with jobs := J1 } : DB).novels.find? (fun n =>
      n.source_url = item1.source_url) = none := by
    rw [List.find?_eq_none]
    intro n hn
    simp only [decide_eq_true_eq, hu1]
    exact h0 n hn
  rcases series_body_spec_new { db with jobs := J1 } item1 hf1 with
    ⟨rowN, rows1, ext1, b1n, b1id, b1url, b1t, b1ch, b1key, b1attr, b1j,
      b1g, b1nil, b1ne, b1wf⟩
  have hE1novels : ((process_item_db (Session.fresh db) item1 none).committed).novels
      = db.novels ++ [rowN] := by
    rw [hE1]
    show (series_body { db with jobs := J1 } item1).novels
      = db.novels ++ [rowN]
    rw [b1n]
  rcases process_series_none_committed
      ((process_item_db (Session.fresh db) item1 none).committed)
      item2 h2 with ⟨J1', J2', hE2⟩
  have hf2 : ({ (process_item_db (Session.fresh db) item1 none).committed
        with jobs := J1' } : DB).novels.find? (fun n =>
      n.source_url = item2.source_url) = some rowN := by
    show ((process_item_db (Session.fresh db) item1 none).committed).novels.find?
      (fun n => n.source_url = item2.source_url) = some rowN
    rw [hE1novels, find?_append_of_none]
    · simp [List.find?, b1url, hu1, hu2]
    · intro n hn
      simp only [decide_eq_false_iff_not, hu2]
      exact h0 n hn
  rcases series_body_spec_existing
      { (process_item_db (Session.fresh db) item1 none).committed
        with jobs := J1' } item2 rowN hf2 with
    ⟨f, rows2, ext2, b2n, b2id, b2url, b2ch, b2key, b2attr, b2j, b2g,
      b2nil, b2ne, b2wf⟩
  refine ⟨rowN.id, rows2, ?_, ?_, b2key⟩
  · have hnov : (ingest_twice db item1 item2).novels
        = (db.novels ++ [rowN]).map f := by
      rw [ingest_twice, hE2]
      show (series_body
        { (process_item_db (Session.fresh db) item1 none).committed
          with jobs := J1' } item2).novels = (db.novels ++ [rowN]).map f
      rw [b2n]
      show ((process_item_db (Session.fresh db) item1 none).committed).novels.map f
        = (db.novels ++ [rowN]).map f
      rw [hE1novels]
    rw [hnov, List.filter_map]
    have hfp : (db.novels ++ [rowN]).filter
        ((fun n => decide (n.source_url = u)) ∘ f)
        = (db.novels ++ [rowN]).filter (fun n => n.source_url = u) := by
      apply List.filter_congr
      intro n hn
      simp [Function.comp, b2url n]
    rw [hfp, List.filter_append]
    have hdb : db.novels.filter (fun n => n.source_url = u) = [] := by
      rw [List.filter_eq_nil_iff]
      intro n hn
      simpa using h0 n hn
    rw [hdb]
    have hrn : List.filter (fun n => decide (n.source_url = u)) [rowN]
        = [rowN] := by
      simp [b1url, hu1]
    rw [List.nil_append, hrn, List.map_map, List.map_singleton]
    simp [Function.comp, b2id rowN]
  · have hchs : (ingest_twice db item1 item2).chapters
        = ({ (process_item_db (Session.fresh db) item1 none).committed
            with jobs := J1' } : DB).chapters.filter
            (fun c => c.novel_id ≠ some rowN.id) ++ rows2 := by
      rw [ingest_twice, hE2]
      show (series_body
        { (process_item_db (Session.fresh db) item1 none).committed
          with jobs := J1' } item2).chapters = _
      rw [b2ch]
    rw [hchs, List.filter_append, filter_ne_then_eq]
    have hr2 : rows2.filter (fun c => c.novel_id = some rowN.id)
        = rows2 := by
      rw [List.filter_eq_self]
      intro c hc
      simp [(b2attr c hc).1]
    rw [hr2, List.nil_append]

/-- C2, witness: the round-trip theorem applied to two concrete series
items over source URL `"u"` against the empty store `dbW`. -/
theorem c2_witness :
    (itemW [chW1, chW2] ["fantasy"]).is_one_shot = false ∧
    (itemW [chW2] ["action"]).is_one_shot = false ∧
    (itemW [chW1, chW2] ["fantasy"]).source_url = "u" ∧
    (itemW [chW2] ["action"]).source_url = "u" ∧
    (∀ n ∈ dbW.novels, ¬ n.source_url = "u") ∧
    (∃ nid rows,
      ((ingest_twice dbW (itemW [chW1, chW2] ["fantasy"])
        (itemW [chW2] ["action"])).novels.filter
        (fun n => n.source_url = "u")).map (fun n => n.id) = [nid] ∧
      (ingest_twice dbW (itemW [chW1, chW2] ["fantasy"])
        (itemW [chW2] ["action"])).chapters.filter
        (fun c => c.novel_id = some nid) = rows ∧
      rows.map chKey = (itemW [chW2] ["action"]).chapters.map ncKey) :=
  ⟨rfl, rfl, rfl, rfl, by decide,
    c2_reingest_same_url dbW (itemW [chW1, chW2] ["fantasy"])
      (itemW [chW2] ["action"]) "u" rfl rfl rfl rfl (by decide)⟩

lemma filter_ne_then_eq_pair (l : List (Nat × Nat)) (nid : Nat) :
    (l.filter (fun p => p.1 ≠ nid)).filter (fun p => p.1 = nid) = [] := by
  rw [List.filter_eq_nil_iff]
  intro p hp
  have hmem := List.of_mem_filter hp
  simp only [decide_eq_true_eq] at hmem ⊢
  exact hmem

/-- C5, counterexample.  The claim states that after a successful series
run the novel's genre associations equal exactly the normalized slug set,
with pre-existing links cleared even when the normalized list is empty.
On the store `c5db` — novel 5 (source URL "u") already linked to genre 6 —
running a series item for "u" whose `normalized_genres` is empty leaves
the pre-existing link `(5, 6)` in place (`_attach_genres` returns
immediately on an empty slug list, before the clearing step), while the
claim requires the novel's association set to be empty. -/
theorem c5_counterexample :
    (itemW [chW2] []).normalized_genres = [] ∧
    ¬ ((process_item_db (Session.fresh c5db) (itemW [chW2] [])
        none).committed.novel_genres.filter (fun p => p.1 = 5) = []) := by
  decide

/-- C5, amended.  In the series persistence path, after a successful run:
if the normalized genre list is non-empty, the novel's genre associations
equal exactly the normalized slugs (all pre-existing links of that novel
are cleared, then one link per slug is attached, get-or-creating each
Genre row); but if the normalized genre list is empty, the attach step
returns before clearing, so all existing links (of every novel) are left
unchanged. -/
theorem c5_amended (db : DB) (item : NormItem)
    (hos : item.is_one_shot = false) (hg : GWF db)
    (hu : (db.novels.filter (fun n =>
      n.source_url = item.source_url)).length ≤ 1) :
    (item.normalized_genres = [] →
      (process_item_db (Session.fresh db) item none).committed.novel_genres
        = db.novel_genres) ∧
    (item.normalized_genres ≠ [] → ∃ nid,
      ((process_item_db (Session.fresh db) item
        none).committed.novels.filter
        (fun n => n.source_url = item.source_url)).map (fun n => n.id)
        = [nid] ∧
      (((process_item_db (Session.fresh db) item
        none).committed.novel_genres.filter
        (fun p => p.1 = nid)).map (fun p =>
        resolveGenre (process_item_db (Session.fresh db) item
          none).committed p.2))
        = item.normalized_genres.map some) := by
  rcases process_series_none_committed db item hos with ⟨J1, J2, hE⟩
  rcases hf : ({ db with jobs := J1 } : DB).novels.find? (fun n =>
      n.source_url = item.source_url) with _ | n0
  · rcases series_body_spec_new { db with jobs := J1 } item hf with
      ⟨rowN, rows1, ext1, b1n, b1id, b1url, b1t, b1ch, b1key, b1attr, b1j,
        b1g, b1nil, b1ne, b1wf⟩
    constructor
    · intro hnil
      rw [hE]
      show (series_body { db with jobs := J1 } item).novel_genres
        = db.novel_genres
      exact b1nil hnil
    · intro hne
      rcases b1ne hne with ⟨links, hlinks, hfst, hres⟩
      refine ⟨db.nextId, ?_, ?_⟩
      · rw [hE]
        show ((series_body { db with jobs := J1 } item).novels.filter
          (fun n => n.source_url = item.source_url)).map (fun n => n.id)
          = [db.nextId]
        rw [b1n]
        show ((db.novels ++ [rowN]).filter
          (fun n => n.source_url = item.source_url)).map (fun n => n.id)
          = [db.nextId]
        rw [List.filter_append]
        have hdb : db.novels.filter (fun n =>
            n.source_url = item.source_url) = [] := by
          rw [List.filter_eq_nil_iff]
          intro n hn
          have := List.find?_eq_none.mp hf n hn
          simpa using this
        rw [hdb, List.nil_append]
        have hrn : List.filter (fun n =>
            decide (n.source_url = item.source_url)) [rowN] = [rowN] := by
          simp [b1url]
        rw [hrn, List.map_singleton, b1id]
      · rw [hE]
        show (((series_body { db with jobs := J1 } item).novel_genres.filter
          (fun p => p.1 = db.nextId)).map (fun p =>
          resolveGenre (series_body { db with jobs := J1 } item) p.2))
          = item.normalized_genres.map some
        rw [hlinks]
        show ((((db.novel_genres.filter (fun p => p.1 ≠ db.nextId))
          ++ links).filter (fun p => p.1 = db.nextId)).map (fun p =>
          resolveGenre (series_body { db with jobs := J1 } item) p.2))
          = item.normalized_genres.map some
        rw [List.filter_append, filter_ne_then_eq_pair]
        have hl : links.filter (fun p => p.1 = db.nextId) = links := by
          rw [List.filter_eq_self]
          intro p hp
          simp [hfst p hp]
        rw [hl, List.nil_append]
        exact hres hg
  · rcases series_body_spec_existing { db with jobs := J1 } item n0 hf with
      ⟨f, rows2, ext2, b2n, b2id, b2url, b2ch, b2key, b2attr, b2j, b2g,
        b2nil, b2ne, b2wf⟩
    constructor
    · intro hnil
      rw [hE]
      show (series_body { db with jobs := J1 } item).novel_genres
        = db.novel_genres
      exact b2nil hnil
    · intro hne
      rcases b2ne hne with ⟨links, hlinks, hfst, hres⟩
      have hn0mem : n0 ∈ db.novels := List.mem_of_find?_eq_some hf
      have hn0url : n0.source_url = item.source_url := by
        have := List.find?_some hf
        simpa using this
      have hfl : db.novels.filter (fun n =>
          n.source_url = item.source_url) = [n0] := by
        have hmem : n0 ∈ db.novels.filter (fun n =>
            n.source_url = item.source_url) :=
          List.mem_filter.mpr ⟨hn0mem, by simpa using hn0url⟩
        rcases hl : db.novels.filter (fun n =>
            n.source_url = item.source_url) with _ | ⟨a, t⟩
        · rw [hl] at hmem
          cases hmem
        · rw [hl] at hmem hu
          cases t with
          | nil =>
            rcases List.mem_singleton.mp hmem with rfl
            exact hl
          | cons b t' =>
            simp at hu
      refine ⟨n0.id, ?_, ?_⟩
      · rw [hE]
        show ((series_body { db with jobs := J1 } item).novels.filter
          (fun n => n.source_url = item.source_url)).map (fun n => n.id)
          = [n0.id]
        rw [b2n]
        show ((db.novels.map f).filter
          (fun n => n.source_url = item.source_url)).map (fun n => n.id)
          = [n0.id]
        rw [List.filter_map]
        have hfp : db.novels.filter
            ((fun n => decide (n.source_url = item.source_url)) ∘ f)
            = db.novels.filter (fun n =>
              n.source_url = item.source_url) := by
          apply List.filter_congr
          intro n hn
          simp [Function.comp, b2url n]
        rw [hfp, hfl, List.map_singleton, List.map_singleton, b2id n0]
      · rw [hE]
        show (((series_body { db with jobs := J1 } item).novel_genres.filter
          (fun p => p.1 = n0.id)).map (fun p =>
          resolveGenre (series_body { db with jobs := J1 } item) p.2))
          = item.normalized_genres.map some
        rw [hlinks]
        show ((((db.novel_genres.filter (fun p => p.1 ≠ n0.id))
          ++ links).filter (fun p => p.1 = n0.id)).map (fun p =>
          resolveGenre (series_body { db with jobs := J1 } item) p.2))
          = item.normalized_genres.map some
        rw [List.filter_append, filter_ne_then_eq_pair]
        have hl : links.filter (fun p => p.1 = n0.id) = links := by
          rw [List.filter_eq_self]
          intro p hp
          simp [hfst p hp]
        rw [hl, List.nil_append]
        exact hres hg

/-- C5, witness: the amended genre-replacement theorem applied to the
empty store `dbW` and a series item carrying the slug list
`["fantasy"]`. -/
theorem c5_witness :
    (itemW [chW1] ["fantasy"]).is_one_shot = false ∧
    GWF dbW ∧
    (dbW.novels.filter (fun n =>
      n.source_url = (itemW [chW1] ["fantasy"]).source_url)).length ≤ 1 ∧
    (((itemW [chW1] ["fantasy"]).normalized_genres = [] →
      (process_item_db (Session.fresh dbW) (itemW [chW1] ["fantasy"])
        none).committed.novel_genres = dbW.novel_genres) ∧
    ((itemW [chW1] ["fantasy"]).normalized_genres ≠ [] → ∃ nid,
      ((process_item_db (Session.fresh dbW) (itemW [chW1] ["fantasy"])
        none).committed.novels.filter
        (fun n => n.source_url = (itemW [chW1] ["fantasy"]).source_url)).map
        (fun n => n.id) = [nid] ∧
      (((process_item_db (Session.fresh dbW) (itemW [chW1] ["fantasy"])
        none).committed.novel_genres.filter
        (fun p => p.1 = nid)).map (fun p =>
        resolveGenre (process_item_db (Session.fresh dbW)
          (itemW [chW1] ["fantasy"]) none).committed p.2))
        = (itemW [chW1] ["fantasy"]).normalized_genres.map some)) :=
  ⟨rfl, by unfold GWF; decide, by decide,
    c5_amended dbW (itemW [chW1] ["fantasy"]) rfl (by unfold GWF; decide)
      (by decide)⟩
